import Mathlib

/-!
Shallow embedding of the authkit authentication core (Rust), covering the
token / email-verification lifecycle (`src/operations/email_verification.rs`,
`src/strategies/token/database_strategy.rs`), registration and login
(`src/operations/register.rs`, `src/operations/login.rs`), session operations
(`src/operations/verify.rs`, `src/operations/logout.rs`), and the background
email worker (`src/email_job/worker.rs`, `src/email_job/queue.rs`).

The persistence layer (`DatabaseTrait`, backed by SQLite/Postgres) is modelled
as an explicit in-memory state (`AuthState`) holding the users, accounts,
sessions and verification-token tables, together with an access trace (`log`)
recording which table each database primitive touched; the trace makes the
frame claims ("does not touch token storage") statable.  `async` is erased:
every operation is a function `AuthState -> result × AuthState`.  The current
time, freshly drawn random tokens/ids, and the outcomes of the email queue and
the host-supplied `EmailSender` are inputs (an `OpEnv`), mirroring the fact
that the Rust code obtains them from the clock, the RNG, and collaborator
calls.  SHA-256 (`hash_token`) and Argon2 (`hash_password`) are modelled as
injective tag functions, since only determinism and collision-freedom of the
digests are relevant to the verified properties.
-/

namespace Authkit

/-- Error taxonomy, from `src/error.rs` (`AuthError`).  `DatabaseError` carries
the display string of the underlying `sqlx::Error`. -/
inductive AuthError where
  | DatabaseError (msg : String)
  | UserAlreadyExists (email : String)
  | UserNotFound
  | InvalidCredentials
  | InvalidSession
  | WeakPassword (msg : String)
  | InvalidEmailFormat
  | MissingDatabase
  | MissingPasswordStrategy
  | PasswordHashingError (msg : String)
  | TokenGenerationError (msg : String)
  | InternalError (msg : String)
  | InvalidToken (msg : String)
  | TokenAlreadyUsed (msg : String)
  | EmailAlreadyVerified (msg : String)
  | TokenExpired (msg : String)
  | EmailSendFailed (msg : String)
  | RateLimitExceeded (msg : String)
  | EmailNotVerified (email : String)
deriving DecidableEq, Repr

/-- Errors of the email queue, from `src/email_job/error.rs`. -/
inductive EmailQueueError where
  | QueueFull
  | WorkerStopped
  | SendFailed (attempts : Nat) (msg : String)
  | ConfigError (msg : String)
deriving DecidableEq, Repr

/-- Row of the `users` table, from `src/database/models.rs` (`DbUser`).  The
email-verification columns are nullable (feature-gated migration). -/
structure DbUser where
  id : String
  email : String
  name : Option String
  created_at : Int
  updated_at : Int
  email_verified : Option Bool
  email_verified_at : Option Int
deriving DecidableEq, Repr

/-- Row of the `accounts` table, from `src/database/models.rs` (`DbAccount`). -/
structure DbAccount where
  id : String
  user_id : String
  provider : String
  provider_account_id : String
  password_hash : Option String
  created_at : Int
  updated_at : Int
deriving DecidableEq, Repr

/-- Row of the `sessions` table, from `src/database/models.rs` (`DbSession`). -/
structure DbSession where
  id : String
  user_id : String
  token : String
  expires_at : Int
  created_at : Int
  ip_address : Option String
  user_agent : Option String
deriving DecidableEq, Repr

/-- Row of the verification-token table, from `src/database/models.rs`
(`DbVerification`): `user_id` is nullable (identifier-only tokens), `used_at`
null until the token is consumed. -/
structure DbVerification where
  id : String
  user_id : Option String
  identifier : String
  token_hash : String
  token_type : String
  expires_at : Int
  created_at : Int
  used_at : Option Int
deriving DecidableEq, Repr

/-- Public user type, from `src/types.rs` (`User`). -/
structure User where
  id : String
  email : String
  name : Option String
  email_verified : Bool
  email_verified_at : Option Int
  created_at : Int
  updated_at : Int
deriving DecidableEq, Repr

/-- `impl From<DbUser> for User` in `src/database/models.rs`:
`email_verified` defaults to `false` when the column is null. -/
def DbUser.toUser (d : DbUser) : User :=
  { id := d.id
    email := d.email
    name := d.name
    email_verified := d.email_verified.getD false
    email_verified_at := d.email_verified_at
    created_at := d.created_at
    updated_at := d.updated_at }

/-- Public session type, from `src/types.rs` (`Session`). -/
structure Session where
  id : String
  token : String
  user_id : String
  expires_at : Int
  created_at : Int
  ip_address : Option String
  user_agent : Option String
deriving DecidableEq, Repr

/-- Result of `TokenStrategy::verify_token`, from
`src/strategies/token/mod.rs` (`VerifiedToken`); `user_id` is optional, as in
the token row. -/
structure VerifiedToken where
  id : String
  user_id : Option String
  token_type : String
deriving DecidableEq, Repr

/-- Result of `TokenStrategy::generate_token`, from
`src/strategies/token/mod.rs` (`Token`): carries the plaintext alongside the
stored metadata. -/
structure Token where
  id : String
  token : String
  token_hash : String
  user_id : Option String
  identifier : String
  token_type : String
  expires_at : Int
  created_at : Int
deriving DecidableEq, Repr

/-- Result of the email-verification operations, from `src/types.rs`
(`VerificationToken`). -/
structure VerificationToken where
  token : String
  identifier : String
  expires_at : Int
deriving DecidableEq, Repr

/-- Tag recorded in the access trace for each database primitive, named after
which table the `DatabaseTrait` method touches.  Token events are the ones the
frame claims are about. -/
inductive DbEvent where
  | userRead
  | userWrite
  | accountRead
  | accountWrite
  | sessionRead
  | sessionWrite
  | sessionDelete
  | tokenRead
  | tokenCreate
  | tokenMarkUsed
  | tokenDelete
deriving DecidableEq, Repr

/-- The durable state owned by `PersistenceCapability`: one list per table,
plus the access trace. -/
structure AuthState where
  users : List DbUser
  accounts : List DbAccount
  sessions : List DbSession
  tokens : List DbVerification
  log : List DbEvent
deriving DecidableEq, Repr

/-- SHA-256 of a token (`DatabaseTokenStrategy::hash_token`), modelled as an
injective tag function: the proofs use only that the digest is a deterministic
function of the plaintext. -/
def hash_token (t : String) : String := "sha256:" ++ t

/-- Argon2 password hashing (`Argon2PasswordStrategy::hash_password`),
modelled as an injective tag function. -/
def hash_password (p : String) : String := "argon2:" ++ p

/-- Argon2 verification (`verify_password`): true iff the stored hash is the
hash of the supplied password. -/
def verify_password (p : String) (h : String) : Bool := hash_password p == h

/-- Append one event to the access trace. -/
def AuthState.trace (st : AuthState) (e : DbEvent) : AuthState :=
  { st with log := st.log ++ [e] }

/-- `DatabaseTrait::find_user_by_email` (also the `_with_verification`
variant, which differs only in which columns it selects): first row whose
email matches. -/
def lookupUserByEmail (st : AuthState) (email : String) : Option DbUser :=
  st.users.find? (fun u => u.email == email)

/-- `DatabaseTrait::find_user_by_id_with_verification`: first row whose id
matches, converted to the public `User`. -/
def lookupUserById (st : AuthState) (id : String) : Option DbUser :=
  st.users.find? (fun u => u.id == id)

/-- `DatabaseTrait::find_user_by_id_with_verification` returns the public
`User` (`user.map(Into::into)`); the read itself is recorded by the caller
appending `.userRead` to the trace. -/
def find_user_by_id_with_verification (st : AuthState) (id : String) : Option User :=
  (lookupUserById st id).map DbUser.toUser

/-- `DatabaseTrait::create_user`: inserts a row; the verification columns
start out false / null, and the returned `User` reflects that. -/
def create_user (st : AuthState) (id email : String) (name : Option String)
    (created_at : Int) : User × AuthState :=
  let row : DbUser :=
    { id := id, email := email, name := name, created_at := created_at
      updated_at := created_at, email_verified := some false
      email_verified_at := none }
  (row.toUser, { st with users := st.users ++ [row], log := st.log ++ [.userWrite] })

/-- `DatabaseTrait::create_account`: inserts the provider binding row. -/
def create_account (st : AuthState) (id user_id provider provider_account_id : String)
    (password_hash : Option String) (created_at : Int) : AuthState :=
  let row : DbAccount :=
    { id := id, user_id := user_id, provider := provider
      provider_account_id := provider_account_id
      password_hash := password_hash, created_at := created_at
      updated_at := created_at }
  { st with accounts := st.accounts ++ [row], log := st.log ++ [.accountWrite] }

/-- `DatabaseTrait::update_email_verified`: `UPDATE users SET email_verified =
1, email_verified_at = ? WHERE id = ?`. -/
def update_email_verified (st : AuthState) (user_id : String) (verified_at : Int) :
    AuthState :=
  { st with
    users := st.users.map (fun u =>
      if u.id == user_id then
        { u with email_verified := some true, email_verified_at := some verified_at }
      else u)
    log := st.log ++ [.userWrite] }

/-- Helper struct of `src/database/models.rs` (`DbUserWithAccount`). -/
structure DbUserWithAccount where
  user : DbUser
  account : DbAccount
deriving DecidableEq, Repr

/-- `DatabaseTrait::find_user_with_credential_account` (and its
`_with_verification` variant, which only selects more columns): the user row
joined with its `provider = "credential"` account, empty if either is
missing. -/
def lookupUserWithCredentialAccount (st : AuthState) (email : String) :
    Option DbUserWithAccount :=
  match st.users.find? (fun u => u.email == email) with
  | none => none
  | some u =>
    match st.accounts.find? (fun a => a.user_id == u.id && a.provider == "credential") with
    | none => none
    | some a => some { user := u, account := a }


/-- `DatabaseTrait::create_session`: inserts the session row. -/
def db_create_session (st : AuthState) (id token user_id : String)
    (expires_at created_at : Int) (ip_address user_agent : Option String) : AuthState :=
  let row : DbSession :=
    { id := id, user_id := user_id, token := token, expires_at := expires_at
      created_at := created_at, ip_address := ip_address, user_agent := user_agent }
  { st with sessions := st.sessions ++ [row], log := st.log ++ [.sessionWrite] }

/-- `DatabaseTrait::find_session`: first session row with the given token. -/
def find_session (st : AuthState) (token : String) : Option DbSession :=
  st.sessions.find? (fun s => s.token == token)

/-- `DatabaseTrait::delete_session`: removes all rows with the token
(idempotent: deleting an absent token succeeds). -/
def delete_session (st : AuthState) (token : String) : AuthState :=
  { st with
    sessions := st.sessions.filter (fun s => !(s.token == token))
    log := st.log ++ [.sessionDelete] }

/-- Pure lookup behind `DatabaseTrait::find_verification` / `find_token`:
first token row matching `(token_hash, token_type)`. -/
def lookupToken (st : AuthState) (token_hash token_type : String) :
    Option DbVerification :=
  st.tokens.find? (fun r => r.token_hash == token_hash && r.token_type == token_type)

/-- `DatabaseTrait::create_token` (`INSERT INTO tokens ...`): the `id` column
is the primary key, so inserting a duplicate id is a database error and
changes nothing. -/
def db_create_token (st : AuthState) (row : DbVerification) :
    Except AuthError Unit × AuthState :=
  if st.tokens.any (fun r => r.id == row.id) then
    (Except.error (.DatabaseError "UNIQUE constraint failed: tokens.id"), st)
  else
    (Except.ok (), { st with tokens := st.tokens ++ [row], log := st.log ++ [.tokenCreate] })

/-- `DatabaseTrait::mark_token_used`: `UPDATE tokens SET used_at = ? WHERE
token_hash = ?` (unconditional; no type filter, no used-null guard). -/
def db_mark_token_used (st : AuthState) (token_hash : String) (used_at : Int) :
    AuthState :=
  { st with
    tokens := st.tokens.map (fun r =>
      if r.token_hash == token_hash then { r with used_at := some used_at } else r)
    log := st.log ++ [.tokenMarkUsed] }

/-- `DatabaseTrait::delete_expired_tokens`: `DELETE FROM tokens WHERE
expires_at < now`. -/
def db_delete_expired_tokens (st : AuthState) (now : Int) : AuthState :=
  { st with
    tokens := st.tokens.filter (fun r => !(r.expires_at < now))
    log := st.log ++ [.tokenDelete] }

/-! ### Token strategy (`src/strategies/token/database_strategy.rs`) -/

/-- The token row built by `generate_token` for a freshly drawn plaintext. -/
def mkTokenRow (id : String) (user_id : String) (identifier : String)
    (token_type : String) (plain : String) (now ttl : Int) : DbVerification :=
  { id := id, user_id := some user_id, identifier := identifier
    token_hash := hash_token plain, token_type := token_type
    expires_at := now + ttl, created_at := now, used_at := none }

/-- `DatabaseTokenStrategy::generate_token`: draws a random plaintext and id
(inputs `plain` / `id` here), hashes the plaintext, stores the row with
`expires_at = now + expires_in_seconds`, and returns plaintext + metadata. -/
def generate_token (st : AuthState) (plain id : String) (user_id identifier : String)
    (token_type : String) (now expires_in_seconds : Int) :
    Except AuthError Token × AuthState :=
  let row := mkTokenRow id user_id identifier token_type plain now expires_in_seconds
  match db_create_token st row with
  | (.error e, st1) => (.error e, st1)
  | (.ok _, st1) =>
    (.ok { id := id, token := plain, token_hash := hash_token plain
           user_id := some user_id, identifier := identifier
           token_type := token_type, expires_at := now + expires_in_seconds
           created_at := now }, st1)

/-- `DatabaseTokenStrategy::verify_token` (lines 121-157): hash the
plaintext, look up `(hash, type)`; not found is `InvalidToken`, a set
`used_at` is `TokenAlreadyUsed`, `expires_at < now` is `TokenExpired`,
otherwise the verified identity is returned.  The only database access is the
read. -/
def verify_token (st : AuthState) (plain token_type : String) (now : Int) :
    Except AuthError VerifiedToken × AuthState :=
  let token_hash := hash_token plain
  let st1 := st.trace .tokenRead
  match lookupToken st token_hash token_type with
  | none => (.error (.InvalidToken "Token not found or invalid"), st1)
  | some db_token =>
    if db_token.used_at.isSome then
      (.error (.TokenAlreadyUsed "This token has already been used"), st1)
    else if db_token.expires_at < now then
      (.error (.TokenExpired "Token has expired"), st1)
    else
      (.ok { id := db_token.id, user_id := db_token.user_id
             token_type := token_type }, st1)

/-- `DatabaseTokenStrategy::mark_token_as_used` (lines 176-184): hash the
plaintext and set `used_at = now` on every row with that hash. -/
def mark_token_as_used (st : AuthState) (plain : String) (now : Int) : AuthState :=
  db_mark_token_used st (hash_token plain) now

/-- `DatabaseTokenStrategy::clean_expired_tokens`. -/
def clean_expired_tokens (st : AuthState) (now : Int) : AuthState :=
  db_delete_expired_tokens st now

/-! ### Validation (`src/validation/email.rs`, `src/validation/password.rs`) -/

/-- Character class `[a-zA-Z0-9._%+-]` of the email regex. -/
def isLocalChar (c : Char) : Bool :=
  c.isAlphanum || c == '.' || c == '_' || c == '%' || c == '+' || c == '-'

/-- Character class `[a-zA-Z0-9.-]` of the email regex. -/
def isDomainChar (c : Char) : Bool :=
  c.isAlphanum || c == '.' || c == '-'

/-- Split a character list at the first occurrence of `c` (absent: `none`). -/
def splitFirst (c : Char) : List Char → Option (List Char × List Char)
  | [] => none
  | x :: xs =>
    if x == c then some ([], xs)
    else (splitFirst c xs).map (fun p => (x :: p.1, p.2))

/-- Split a character list at the last occurrence of `c` (absent: `none`). -/
def splitLast (c : Char) (l : List Char) : Option (List Char × List Char) :=
  (splitFirst c l.reverse).map (fun p => (p.2.reverse, p.1.reverse))

/-- The email regex `^[a-zA-Z0-9._%+-]+@[a-zA-Z0-9.-]+\.[a-zA-Z]{2,}$` of
`src/validation/email.rs`, expressed as the (equivalent) decomposition
`local @ domain . tld`: since `@` is in neither character class the split at
the first `@` is forced, and since the tld is all-alphabetic the dot before it
is the last dot of the tail. -/
def emailMatches (s : String) : Bool :=
  match splitFirst '@' s.toList with
  | none => false
  | some (local_part, rest) =>
    !local_part.isEmpty && local_part.all isLocalChar &&
      match splitLast '.' rest with
      | none => false
      | some (domain, tld) =>
        !domain.isEmpty && domain.all isDomainChar &&
          decide (2 ≤ tld.length) && tld.all (fun c => c.isAlpha)

/-- `validation::email::validate`. -/
def validate_email (email : String) : Except AuthError Unit :=
  if emailMatches email then .ok () else .error .InvalidEmailFormat

/-- `validation::password::validate`: byte length in 8..=128, at least one
uppercase letter, one lowercase letter, one ASCII digit (checked in that
order; Rust's Unicode `is_uppercase` / `is_lowercase` restricted to ASCII
here). -/
def validate_password (password : String) : Except AuthError Unit :=
  if password.utf8ByteSize < 8 then
    .error (.WeakPassword "Password must be at least 8 characters")
  else if 128 < password.utf8ByteSize then
    .error (.WeakPassword "Password must be at most 128 characters")
  else if !(password.toList.any (fun c => c.isUpper)) then
    .error (.WeakPassword "Password must contain at least one uppercase letter")
  else if !(password.toList.any (fun c => c.isLower)) then
    .error (.WeakPassword "Password must contain at least one lowercase letter")
  else if !(password.toList.any (fun c => c.isDigit)) then
    .error (.WeakPassword "Password must contain at least one digit")
  else
    .ok ()

/-! ### Operations (`src/operations/*.rs`)

Each operation takes an `OpEnv` carrying what the Rust code obtains from the
clock (`now`), the RNG (fresh plaintext token / row ids / session token), and
the collaborators: `queue` is `none` when no email queue is configured and
otherwise holds the enqueue outcome; `sender` is `none` when no `EmailSender`
is configured and otherwise holds the outcome of its synchronous call;
`accountInsertOk` injects an infrastructure failure into the second insert of
`register` (the `create_account` call). -/

structure OpEnv where
  now : Int
  tokenPlain : String
  tokenId : String
  userId : String
  accountId : String
  sessionId : String
  sessionToken : String
  queue : Option (Except EmailQueueError Unit)
  sender : Option (Except AuthError Unit)
  accountInsertOk : Bool

/-- Request types of the operations. -/
structure RegisterReq where
  email : String
  password : String
  name : Option String

structure LoginReq where
  email : String
  password : String
  ip_address : Option String
  user_agent : Option String

/-- The common tail of the token-issuing operations: try the queue first (only
when one is configured), fall back to a synchronous `EmailSender` call on any
enqueue error, propagate a synchronous send failure, otherwise return the
`VerificationToken` (`src/operations/email_verification.rs`, the
`queue.enqueue(job)` match plus the `if let Some(email_sender)` block). -/
def deliverVerification (st : AuthState) (env : OpEnv) (email : String)
    (tok : Token) : Except AuthError VerificationToken × AuthState :=
  let success : Except AuthError VerificationToken × AuthState :=
    (.ok { token := tok.token, identifier := email, expires_at := tok.expires_at }, st)
  match env.queue with
  | some (.ok _) => success
  | some (.error _) =>
    -- enqueue failed: fall through to the synchronous send
    (match env.sender with
     | some (.error e) => (.error e, st)
     | _ => success)
  | none =>
    (match env.sender with
     | some (.error e) => (.error e, st)
     | _ => success)

/-- `send_email_verification` (`src/operations/email_verification.rs` lines
40-117): look up the user with verification columns, fail `UserNotFound` /
`EmailAlreadyVerified`, generate a 24-hour token, then deliver. -/
def send_email_verification (st : AuthState) (env : OpEnv) (user_id : String) :
    Except AuthError VerificationToken × AuthState :=
  let st1 := st.trace .userRead
  match find_user_by_id_with_verification st user_id with
  | none => (.error .UserNotFound, st1)
  | some user =>
    if user.email_verified then
      (.error (.EmailAlreadyVerified "Email is already verified"), st1)
    else
      match generate_token st1 env.tokenPlain env.tokenId user_id user.email
          "email_verification" env.now 86400 with
      | (.error e, st2) => (.error e, st2)
      | (.ok tok, st2) => deliverVerification st2 env user.email tok

/-- `verify_email` (`src/operations/email_verification.rs` lines 127-186):
verify the token, require an associated user id, look the user up, fail if
already verified, mark the token used, set `email_verified`, and return the
refreshed user. -/
def verify_email (st : AuthState) (env : OpEnv) (plain : String) :
    Except AuthError User × AuthState :=
  match verify_token st plain "email_verification" env.now with
  | (.error e, st1) => (.error e, st1)
  | (.ok verified_token, st1) =>
    match verified_token.user_id with
    | none => (.error (.InvalidToken "Token does not have an associated user"), st1)
    | some user_id =>
      let st2 := st1.trace .userRead
      match find_user_by_id_with_verification st1 user_id with
      | none => (.error .UserNotFound, st2)
      | some user =>
        if user.email_verified then
          (.error (.EmailAlreadyVerified "Email is already verified"), st2)
        else
          let st3 := mark_token_as_used st2 plain env.now
          let st4 := update_email_verified st3 user_id env.now
          let st5 := st4.trace .userRead
          match find_user_by_id_with_verification st4 user_id with
          | none => (.error .UserNotFound, st5)
          | some updated_user => (.ok updated_user, st5)

/-- `resend_email_verification` (`src/operations/email_verification.rs` lines
196-275): look the user up by email, same already-verified guard (on the raw
nullable column, `unwrap_or(false)`), generate a fresh token, deliver. -/
def resend_email_verification (st : AuthState) (env : OpEnv) (email : String) :
    Except AuthError VerificationToken × AuthState :=
  let st1 := st.trace .userRead
  match lookupUserByEmail st email with
  | none => (.error .UserNotFound, st1)
  | some db_user =>
    if db_user.email_verified.getD false then
      (.error (.EmailAlreadyVerified "Email is already verified"), st1)
    else
      match generate_token st1 env.tokenPlain env.tokenId db_user.id db_user.email
          "email_verification" env.now 86400 with
      | (.error e, st2) => (.error e, st2)
      | (.ok tok, st2) => deliverVerification st2 env db_user.email tok

/-- `register::execute` (`src/operations/register.rs`): validate, check
uniqueness, hash, insert the user, insert the credential account (the two
inserts are separate statements: when the second fails the database error is
returned with the user row already persisted), then optionally auto-send the
verification email as in `send_email_verification`. -/
def register (st : AuthState) (env : OpEnv) (send_verification_on_register : Bool)
    (req : RegisterReq) : Except AuthError User × AuthState :=
  match validate_email req.email with
  | .error e => (.error e, st)
  | .ok _ =>
    match validate_password req.password with
    | .error e => (.error e, st)
    | .ok _ =>
      let st1 := st.trace .userRead
      match lookupUserByEmail st req.email with
      | some _ => (.error (.UserAlreadyExists req.email), st1)
      | none =>
        let password_hash := hash_password req.password
        let (user, st2) := create_user st1 env.userId req.email req.name env.now
        if !env.accountInsertOk then
          (.error (.DatabaseError "account insert failed"), st2)
        else
          let st3 := create_account st2 env.accountId env.userId "credential"
            req.email (some password_hash) env.now
          if !send_verification_on_register then (.ok user, st3)
          else if env.sender.isNone then (.ok user, st3)
          else
            match generate_token st3 env.tokenPlain env.tokenId env.userId req.email
                "email_verification" env.now 86400 with
            | (.error e, st4) => (.error e, st4)
            | (.ok tok, st4) =>
              match deliverVerification st4 env user.email tok with
              | (.error e, st5) => (.error e, st5)
              | (.ok _, st5) => (.ok user, st5)

/-- `login::execute` (`src/operations/login.rs`): the credential lookup (the
`require_email_verification` flag only selects which query runs; both return
the same rows here), the two `InvalidCredentials` failure paths (absent user
or account / missing hash), password verification, then - only after the
password check - the `EmailNotVerified` guard, and finally session creation
with a 24h lifetime. -/
def login (st : AuthState) (env : OpEnv) (require_email_verification : Bool)
    (req : LoginReq) : Except AuthError Session × AuthState :=
  let st1 := st.trace .userRead
  match lookupUserWithCredentialAccount st req.email with
  | none => (.error .InvalidCredentials, st1)
  | some user_with_account =>
    match user_with_account.account.password_hash with
    | none => (.error .InvalidCredentials, st1)
    | some password_hash =>
      if !(verify_password req.password password_hash) then
        (.error .InvalidCredentials, st1)
      else
        let user := user_with_account.user
        if require_email_verification && !(user.email_verified.getD false) then
          (.error (.EmailNotVerified user.email), st1)
        else
          let expires_at := env.now + 86400
          let st2 := db_create_session st1 env.sessionId env.sessionToken user.id
            expires_at env.now req.ip_address req.user_agent
          (.ok { id := env.sessionId, token := env.sessionToken, user_id := user.id
                 expires_at := expires_at, created_at := env.now
                 ip_address := req.ip_address, user_agent := req.user_agent }, st2)

/-- `verify::execute` (`src/operations/verify.rs`): session lookup, expiry
check, user resolution. -/
def verify_session (st : AuthState) (now : Int) (token : String) :
    Except AuthError User × AuthState :=
  let st1 := st.trace .sessionRead
  match find_session st token with
  | none => (.error .InvalidSession, st1)
  | some session =>
    if session.expires_at < now then (.error .InvalidSession, st1)
    else
      let st2 := st1.trace .userRead
      match lookupUserById st1 session.user_id with
      | none => (.error .UserNotFound, st2)
      | some db_user => (.ok db_user.toUser, st2)

/-- `logout::execute` (`src/operations/logout.rs`): delete the session. -/
def logout (st : AuthState) (token : String) : Except AuthError Unit × AuthState :=
  (.ok (), delete_session st token)

/-! ### The public operation surface as a step relation

For the temporal claims ("... by any operation", "any subsequent call") the
public operations of `Auth` - plus the `clean_expired_tokens` maintenance
call - are packaged as an inductive `Op`, each constructor carrying the
operation's request and its environment, and `Op.step` runs the operation for
its state effect. -/

inductive Op where
  | opRegister (env : OpEnv) (send_verification_on_register : Bool) (req : RegisterReq)
  | opLogin (env : OpEnv) (require_email_verification : Bool) (req : LoginReq)
  | opLogout (token : String)
  | opVerifySession (now : Int) (token : String)
  | opSendEmailVerification (env : OpEnv) (user_id : String)
  | opVerifyEmail (env : OpEnv) (plain : String)
  | opResendEmailVerification (env : OpEnv) (email : String)
  | opCleanExpiredTokens (now : Int)

def Op.step (st : AuthState) : Op → AuthState
  | .opRegister env so req => (register st env so req).2
  | .opLogin env rev req => (login st env rev req).2
  | .opLogout token => (logout st token).2
  | .opVerifySession now token => (verify_session st now token).2
  | .opSendEmailVerification env user_id => (send_email_verification st env user_id).2
  | .opVerifyEmail env plain => (verify_email st env plain).2
  | .opResendEmailVerification env email => (resend_email_verification st env email).2
  | .opCleanExpiredTokens now => clean_expired_tokens st now

def runOps (st : AuthState) (ops : List Op) : AuthState :=
  ops.foldl Op.step st

/-- The hash of the token an operation would store, for the three
token-generating operations (`none` for the others). -/
def Op.genHash : Op → Option String
  | .opRegister env _ _ => some (hash_token env.tokenPlain)
  | .opSendEmailVerification env _ => some (hash_token env.tokenPlain)
  | .opResendEmailVerification env _ => some (hash_token env.tokenPlain)
  | _ => none

/-- The operation's freshly drawn token plaintext does not collide with the
hash `h` - guaranteed for the real RNG (128-bit tokens), an explicit
hypothesis here. -/
def Op.freshFor (h : String) (op : Op) : Prop := op.genHash ≠ some h

/-- Every row with the given token hash has been consumed (or no such row
exists). -/
def tokensUsedFor (st : AuthState) (h : String) : Prop :=
  ∀ r ∈ st.tokens, r.token_hash = h → r.used_at ≠ none

/-- Well-formedness provided by the `tokens.id` primary key: distinct rows
have distinct ids. -/
def tokenIdsNodup (st : AuthState) : Prop :=
  (st.tokens.map (fun r => r.id)).Nodup

/-! ### Email worker (`src/email_job/worker.rs`) -/

/-- Result of `EmailWorker::process_job`, for specification purposes: the Rust
function returns `()` (a dropped job is only logged, nothing flows back to the
caller that issued the token), so the outcome records just how many delivery
attempts were made and whether the last one succeeded. -/
inductive JobOutcome where
  | sent (attempts : Nat)
  | droppedPermanently (attempts : Nat)
deriving DecidableEq, Repr

/-- Number of `EmailSender` invocations the processing made. -/
def JobOutcome.attemptCount : JobOutcome → Nat
  | .sent a => a
  | .droppedPermanently a => a

/-- The body of the `loop` in `EmailWorker::process_job`: increment
`job.attempts`, invoke the sender (`send k` is the outcome of the k-th
invocation), return on success, drop when `attempts >= max_attempts`,
otherwise sleep (`calculate_backoff`) and iterate.  The loop is bounded
because `attempts` strictly increases towards `max_attempts`; `fuel` is that
bound made structural.  The `fuel = 0` arm is unreachable from `process_job`
(there `attempts + fuel = max_attempts` holds at every iteration, so `fuel =
0` forces `max_attempts ≤ attempts + 1`, which returns first). -/
def process_job_iter (send : Nat → Bool) (max_attempts : Nat) :
    Nat → Nat → JobOutcome
  | attempts, fuel =>
    let a := attempts + 1
    if send a then .sent a
    else if max_attempts ≤ a then .droppedPermanently a
    else
      match fuel with
      | 0 => .droppedPermanently a
      | fuel' + 1 => process_job_iter send max_attempts a fuel'

/-- `EmailWorker::process_job` on a job fresh from `EmailJob::new`
(`attempts = 0`). -/
def process_job (send : Nat → Bool) (max_attempts : Nat) : JobOutcome :=
  process_job_iter send max_attempts 0 max_attempts

/-! ### Retry backoff (`EmailWorker::calculate_backoff`)

u64 / i64 machine arithmetic is made explicit: `u64_sat_mul` / `u64_sat_pow`
are the saturating operations, `toI64` is the `as i64` cast (wrapping at
`2^63`), `wrapI64` is two's-complement i64 addition overflow.  `r` is the
value drawn by `rng.random_range(0..jitter_range * 2)`. -/

def U64_MOD : Nat := 2 ^ 64

def u64_sat_mul (a b : Nat) : Nat := min (a * b) (U64_MOD - 1)

def u64_sat_pow (b e : Nat) : Nat := min (b ^ e) (U64_MOD - 1)

/-- `x as i64` on a u64 value. -/
def toI64 (n : Nat) : Int :=
  if n % U64_MOD < 2 ^ 63 then ((n % U64_MOD : Nat) : Int)
  else ((n % U64_MOD : Nat) : Int) - (U64_MOD : Int)

/-- Two's-complement wrap of an i64 arithmetic result. -/
def wrapI64 (x : Int) : Int := (x + 2 ^ 63) % (U64_MOD : Int) - 2 ^ 63

/-- `EmailWorker::calculate_backoff` (lines 101-119).  `base_ms` / `max_ms`
are `base_retry_delay.as_millis() as u64` / `max_retry_delay.as_millis() as
u64` (hence the `% 2^64`), `attempt` the current attempt number, and the
result the delay in milliseconds. -/
def calculate_backoff (base_ms max_ms : Nat) (attempt : Nat) (r : Nat) : Nat :=
  let base := base_ms % U64_MOD
  let maxd := max_ms % U64_MOD
  let exponential := u64_sat_mul base (u64_sat_pow 2 (attempt - 1))
  let clamped := min exponential maxd
  let jitter_range := clamped / 10
  let jitter : Int :=
    if 0 < jitter_range then wrapI64 (toI64 r - toI64 jitter_range) else 0
  (max (wrapI64 (toI64 clamped + jitter)) 0).toNat

/-- The clamped exponential delay `min(base * 2^(attempt-1), max)` before
jitter, as computed by `calculate_backoff`. -/
def clampedDelay (base_ms max_ms : Nat) (attempt : Nat) : Nat :=
  min (u64_sat_mul (base_ms % U64_MOD) (u64_sat_pow 2 (attempt - 1))) (max_ms % U64_MOD)

/-- `EmailSendFailed`-shape test used to state what error kind an operation
returned. -/
def AuthError.isEmailSendFailed : AuthError → Bool
  | .EmailSendFailed _ => true
  | _ => false

/-! ### Projection lemmas for the database primitives -/

@[simp] theorem trace_users (st : AuthState) (e : DbEvent) :
    (st.trace e).users = st.users := rfl

@[simp] theorem trace_accounts (st : AuthState) (e : DbEvent) :
    (st.trace e).accounts = st.accounts := rfl

@[simp] theorem trace_sessions (st : AuthState) (e : DbEvent) :
    (st.trace e).sessions = st.sessions := rfl

@[simp] theorem trace_tokens (st : AuthState) (e : DbEvent) :
    (st.trace e).tokens = st.tokens := rfl

@[simp] theorem trace_log (st : AuthState) (e : DbEvent) :
    (st.trace e).log = st.log ++ [e] := rfl

@[simp] theorem create_user_tokens (st : AuthState) (id email : String)
    (name : Option String) (t : Int) :
    (create_user st id email name t).2.tokens = st.tokens := rfl

@[simp] theorem create_account_tokens (st : AuthState) (a b c d : String)
    (ph : Option String) (t : Int) :
    (create_account st a b c d ph t).tokens = st.tokens := rfl

@[simp] theorem update_email_verified_tokens (st : AuthState) (u : String) (t : Int) :
    (update_email_verified st u t).tokens = st.tokens := rfl

@[simp] theorem db_create_session_tokens (st : AuthState) (a b c : String)
    (t1 t2 : Int) (ip ua : Option String) :
    (db_create_session st a b c t1 t2 ip ua).tokens = st.tokens := rfl

@[simp] theorem delete_session_tokens (st : AuthState) (tk : String) :
    (delete_session st tk).tokens = st.tokens := rfl

@[simp] theorem db_mark_token_used_tokens (st : AuthState) (h : String) (t : Int) :
    (db_mark_token_used st h t).tokens
      = st.tokens.map (fun r => if r.token_hash == h then { r with used_at := some t } else r) :=
  rfl

@[simp] theorem db_delete_expired_tokens_tokens (st : AuthState) (now : Int) :
    (db_delete_expired_tokens st now).tokens
      = st.tokens.filter (fun r => !(r.expires_at < now)) := rfl

/-- The delivery tail never touches the database: its state is the input
state, whatever the queue and sender outcomes are. -/
theorem deliverVerification_snd (st : AuthState) (env : OpEnv) (email : String)
    (tok : Token) : (deliverVerification st env email tok).2 = st := by
  unfold deliverVerification
  rcases hq : env.queue with _ | q
  · rcases hs : env.sender with _ | s
    · simp
    · cases s <;> simp
  · cases q with
    | ok _ => simp
    | error _ =>
      rcases hs : env.sender with _ | s
      · simp
      · cases s <;> simp

/-- Shape of `generate_token`'s state effect: on a primary-key conflict the
state is unchanged, otherwise exactly the freshly built row is appended (and
its id was fresh). -/
theorem generate_token_tokens (st : AuthState) (plain id uid ident ty : String)
    (now ttl : Int) :
    (generate_token st plain id uid ident ty now ttl).2.tokens = st.tokens
    ∨ ((generate_token st plain id uid ident ty now ttl).2.tokens
        = st.tokens ++ [mkTokenRow id uid ident ty plain now ttl]
       ∧ ∀ r ∈ st.tokens, r.id ≠ id) := by
  unfold generate_token db_create_token
  by_cases hdup : st.tokens.any (fun r => r.id == (mkTokenRow id uid ident ty plain now ttl).id)
  · left; simp [hdup]
  · right
    constructor
    · simp [hdup]
    · intro r hr hid
      apply hdup
      simp only [List.any_eq_true]
      exact ⟨r, hr, by simp [mkTokenRow, hid]⟩

/-- An operation appended exactly one fresh unused token row with hash `h`. -/
def TokensAppendFresh (st st2 : AuthState) (h : String) : Prop :=
  ∃ row, st2.tokens = st.tokens ++ [row] ∧ row.used_at = none ∧ row.token_hash = h
    ∧ ∀ r ∈ st.tokens, r.id ≠ row.id

theorem send_email_verification_tokens (st : AuthState) (env : OpEnv) (uid : String) :
    (send_email_verification st env uid).2.tokens = st.tokens
    ∨ TokensAppendFresh st (send_email_verification st env uid).2
        (hash_token env.tokenPlain) := by
  unfold send_email_verification
  rcases hu : find_user_by_id_with_verification st uid with _ | user
  · left; simp
  · by_cases hv : user.email_verified
    · left; simp [hv]
    · simp only [hv, Bool.false_eq_true, if_false]
      have h2 := generate_token_tokens (st.trace .userRead) env.tokenPlain env.tokenId uid
        user.email "email_verification" env.now 86400
      rcases hg : generate_token (st.trace .userRead) env.tokenPlain env.tokenId uid
          user.email "email_verification" env.now 86400 with ⟨res, st2⟩
      rw [hg] at h2
      simp only [trace_tokens] at h2
      rcases h2 with h2 | ⟨h2, hfr⟩
      · left
        cases res with
        | error e => simpa using h2
        | ok tok => simpa [deliverVerification_snd] using h2
      · right
        refine ⟨mkTokenRow env.tokenId uid user.email "email_verification"
          env.tokenPlain env.now 86400, ?_, rfl, rfl, ?_⟩
        · cases res with
          | error e => simpa using h2
          | ok tok => simpa [deliverVerification_snd] using h2
        · intro r hr
          exact hfr r hr

theorem resend_email_verification_tokens (st : AuthState) (env : OpEnv) (email : String) :
    (resend_email_verification st env email).2.tokens = st.tokens
    ∨ TokensAppendFresh st (resend_email_verification st env email).2
        (hash_token env.tokenPlain) := by
  unfold resend_email_verification
  rcases hu : lookupUserByEmail st email with _ | db_user
  · left; simp
  · by_cases hv : db_user.email_verified.getD false
    · left; simp [hv]
    · simp only [hv, Bool.false_eq_true, if_false]
      have h2 := generate_token_tokens (st.trace .userRead) env.tokenPlain env.tokenId
        db_user.id db_user.email "email_verification" env.now 86400
      rcases hg : generate_token (st.trace .userRead) env.tokenPlain env.tokenId
          db_user.id db_user.email "email_verification" env.now 86400 with ⟨res, st2⟩
      rw [hg] at h2
      simp only [trace_tokens] at h2
      rcases h2 with h2 | ⟨h2, hfr⟩
      · left
        cases res with
        | error e => simpa using h2
        | ok tok => simpa [deliverVerification_snd] using h2
      · right
        refine ⟨mkTokenRow env.tokenId db_user.id db_user.email "email_verification"
          env.tokenPlain env.now 86400, ?_, rfl, rfl, ?_⟩
        · cases res with
          | error e => simpa using h2
          | ok tok => simpa [deliverVerification_snd] using h2
        · intro r hr
          exact hfr r hr

theorem register_tokens (st : AuthState) (env : OpEnv) (so : Bool) (req : RegisterReq) :
    (register st env so req).2.tokens = st.tokens
    ∨ TokensAppendFresh st (register st env so req).2 (hash_token env.tokenPlain) := by
  unfold register
  rcases validate_email req.email with e | u
  · left; rfl
  · rcases validate_password req.password with e | u2
    · left; rfl
    · rcases hu : lookupUserByEmail st req.email with _ | du
      · rcases hacc : env.accountInsertOk with _ | _
        · left; simp [create_user, hacc]
        · simp only [hacc, Bool.not_true, Bool.false_eq_true, if_false]
          rcases hso : so with _ | _
          · left; simp [create_user, create_account]
          · rcases hsend : env.sender with _ | sres
            · left; simp [create_user, create_account, hsend]
            · simp only [hsend, Option.isNone_some, Bool.false_eq_true, if_false]
              set stm := create_account (create_user (st.trace .userRead) env.userId
                req.email req.name env.now).2 env.accountId env.userId "credential"
                req.email (some (hash_password req.password)) env.now with hstm
              have htok : stm.tokens = st.tokens := by
                rw [hstm]; simp [create_user, create_account]
              have h2 := generate_token_tokens stm env.tokenPlain env.tokenId env.userId
                req.email "email_verification" env.now 86400
              rcases hg : generate_token stm env.tokenPlain env.tokenId env.userId
                  req.email "email_verification" env.now 86400 with ⟨res, st4⟩
              rw [hg] at h2
              rw [htok] at h2
              rcases h2 with h2 | ⟨h2, hfr⟩
              · left
                cases res with
                | error e => simpa using h2
                | ok tok =>
                  rcases hd : deliverVerification st4 env (create_user (st.trace .userRead)
                      env.userId req.email req.name env.now).1.email tok with ⟨dres, st5⟩
                  have hst5 : st5 = st4 := by
                    have hx := deliverVerification_snd st4 env (create_user (st.trace .userRead)
                      env.userId req.email req.name env.now).1.email tok
                    rw [hd] at hx; exact hx
                  have h2x : st4.tokens = st.tokens := by simpa using h2
                  cases dres <;> simp [hd, hst5, h2x]
              · right
                refine ⟨mkTokenRow env.tokenId env.userId req.email "email_verification"
                  env.tokenPlain env.now 86400, ?_, rfl, rfl, ?_⟩
                · cases res with
                  | error e => simpa using h2
                  | ok tok =>
                    rcases hd : deliverVerification st4 env (create_user (st.trace .userRead)
                        env.userId req.email req.name env.now).1.email tok with ⟨dres, st5⟩
                    have hst5 : st5 = st4 := by
                      have hx := deliverVerification_snd st4 env (create_user (st.trace .userRead)
                        env.userId req.email req.name env.now).1.email tok
                      rw [hd] at hx; exact hx
                    have h2x : st4.tokens = st.tokens
                        ++ [mkTokenRow env.tokenId env.userId req.email "email_verification"
                             env.tokenPlain env.now 86400] := by simpa using h2
                    cases dres <;> simp [hd, hst5, h2x]
                · intro r hr
                  exact hfr r hr
      · left; simp

/-- `verify_token` is read-only: whatever the outcome, its state is the input
state with just the token read traced. -/
theorem verify_token_snd (st : AuthState) (plain ty : String) (now : Int) :
    (verify_token st plain ty now).2 = st.trace .tokenRead := by
  unfold verify_token
  rcases h : lookupToken st (hash_token plain) ty with _ | row
  · simp [h]
  · by_cases hused : row.used_at.isSome
    · simp [h, hused]
    · by_cases hexp : row.expires_at < now
      · simp [h, hused, hexp]
      · simp [h, hused, hexp]

theorem verify_email_tokens (st : AuthState) (env : OpEnv) (plain : String) :
    (verify_email st env plain).2.tokens = st.tokens
    ∨ (verify_email st env plain).2.tokens
        = st.tokens.map (fun r =>
            if r.token_hash == hash_token plain then { r with used_at := some env.now }
            else r) := by
  unfold verify_email
  rcases hvt : verify_token st plain "email_verification" env.now with ⟨vres, st1⟩
  have hst1 : st1 = st.trace .tokenRead := by
    have hx := verify_token_snd st plain "email_verification" env.now
    rw [hvt] at hx; exact hx
  have hst1tok : st1.tokens = st.tokens := by rw [hst1]; simp
  cases vres with
  | error e => left; simpa using hst1tok
  | ok vt =>
    rcases hvid : vt.user_id with _ | uid
    · left; simpa [hvid] using hst1tok
    · rcases hu : find_user_by_id_with_verification st1 uid with _ | user
      · left; simpa [hvid, hu] using hst1tok
      · by_cases hv : user.email_verified
        · left; simpa [hvid, hu, hv] using hst1tok
        · right
          rcases hu2 : find_user_by_id_with_verification
              (update_email_verified
                (db_mark_token_used (st1.trace .userRead) (hash_token plain) env.now)
                uid env.now) uid with _ | u2 <;>
            simp [hvid, hu, hu2, hv, mark_token_as_used, hst1tok]

theorem login_tokens (st : AuthState) (env : OpEnv) (rev : Bool) (req : LoginReq) :
    (login st env rev req).2.tokens = st.tokens := by
  unfold login
  rcases h1 : lookupUserWithCredentialAccount st req.email with _ | uwa
  · simp
  · rcases h2 : uwa.account.password_hash with _ | ph
    · simp [h2]
    · by_cases hp : verify_password req.password ph
      · by_cases hg : rev && !(uwa.user.email_verified.getD false)
        · simp [h2, hp, hg]
        · simp [h2, hp, hg, db_create_session]
      · simp [h2, hp]

theorem verify_session_tokens (st : AuthState) (now : Int) (token : String) :
    (verify_session st now token).2.tokens = st.tokens := by
  unfold verify_session
  rcases h1 : find_session st token with _ | s
  · simp
  · by_cases hexp : s.expires_at < now
    · simp [hexp]
    · rcases h2 : lookupUserById (st.trace .sessionRead) s.user_id with _ | du <;>
        simp [hexp, h2]

theorem logout_tokens (st : AuthState) (token : String) :
    (logout st token).2.tokens = st.tokens := by
  unfold logout
  simp

theorem clean_expired_tokens_tokens (st : AuthState) (now : Int) :
    (clean_expired_tokens st now).tokens
      = st.tokens.filter (fun r => !(r.expires_at < now)) := rfl

/-! ### Preservation of "all rows with this hash are consumed" -/

theorem tokensUsedFor_of_eq {st st2 : AuthState} {h : String}
    (he : st2.tokens = st.tokens) (hP : tokensUsedFor st h) : tokensUsedFor st2 h := by
  intro r hr
  rw [he] at hr
  exact hP r hr

theorem tokensUsedFor_filter {st st2 : AuthState} {h : String}
    {p : DbVerification → Bool} (he : st2.tokens = st.tokens.filter p)
    (hP : tokensUsedFor st h) : tokensUsedFor st2 h := by
  intro r hr
  rw [he] at hr
  exact hP r (List.mem_of_mem_filter hr)

theorem tokensUsedFor_marked {st st2 : AuthState} {h hm : String} {t : Int}
    (he : st2.tokens = st.tokens.map (fun r =>
      if r.token_hash == hm then { r with used_at := some t } else r))
    (hP : tokensUsedFor st h) : tokensUsedFor st2 h := by
  intro r hr hh
  rw [he] at hr
  rcases List.mem_map.1 hr with ⟨rr, hrr, hfr⟩
  by_cases hc : rr.token_hash == hm
  · rw [if_pos hc] at hfr
    rw [← hfr]
    simp
  · rw [if_neg hc] at hfr
    rw [← hfr]
    exact hP rr hrr (by rw [hfr]; exact hh)

theorem tokensUsedFor_append_fresh {st st2 : AuthState} {h g : String}
    (ha : TokensAppendFresh st st2 g) (hne : g ≠ h)
    (hP : tokensUsedFor st h) : tokensUsedFor st2 h := by
  rcases ha with ⟨row, he, hrn, hrh, _⟩
  intro r hr hh
  rw [he] at hr
  rcases List.mem_append.1 hr with hr | hr
  · exact hP r hr hh
  · simp only [List.mem_singleton] at hr
    subst hr
    exact absurd (hrh.symm.trans hh) hne

/-- Every public operation preserves "all rows with hash `h` are consumed",
provided its freshly generated token (if any) does not collide with `h`. -/
theorem tokensUsedFor_step (h : String) (op : Op) (st : AuthState)
    (hfresh : Op.freshFor h op) (hP : tokensUsedFor st h) :
    tokensUsedFor (Op.step st op) h := by
  cases op with
  | opRegister env so req =>
    rcases register_tokens st env so req with he | ha
    · exact tokensUsedFor_of_eq he hP
    · refine tokensUsedFor_append_fresh ha ?_ hP
      intro hcol
      exact hfresh (by simp [Op.genHash, hcol])
  | opLogin env rev req => exact tokensUsedFor_of_eq (login_tokens st env rev req) hP
  | opLogout token => exact tokensUsedFor_of_eq (logout_tokens st token) hP
  | opVerifySession now token =>
    exact tokensUsedFor_of_eq (verify_session_tokens st now token) hP
  | opSendEmailVerification env uid =>
    rcases send_email_verification_tokens st env uid with he | ha
    · exact tokensUsedFor_of_eq he hP
    · refine tokensUsedFor_append_fresh ha ?_ hP
      intro hcol
      exact hfresh (by simp [Op.genHash, hcol])
  | opVerifyEmail env plain =>
    rcases verify_email_tokens st env plain with he | he
    · exact tokensUsedFor_of_eq he hP
    · exact tokensUsedFor_marked he hP
  | opResendEmailVerification env email =>
    rcases resend_email_verification_tokens st env email with he | ha
    · exact tokensUsedFor_of_eq he hP
    · refine tokensUsedFor_append_fresh ha ?_ hP
      intro hcol
      exact hfresh (by simp [Op.genHash, hcol])
  | opCleanExpiredTokens now =>
    exact tokensUsedFor_filter (clean_expired_tokens_tokens st now) hP

theorem tokensUsedFor_runOps (h : String) (ops : List Op) (st : AuthState)
    (hfresh : ∀ op ∈ ops, Op.freshFor h op) (hP : tokensUsedFor st h) :
    tokensUsedFor (runOps st ops) h := by
  induction ops generalizing st with
  | nil => exact hP
  | cons op ops ih =>
    exact ih _ (fun o ho => hfresh o (List.mem_cons_of_mem _ ho))
      (tokensUsedFor_step h op st (hfresh op (List.mem_cons_self op ops)) hP)

/-- Inversion of a successful `verify_email`: the final token table is the
input table with `used_at` set on every row whose hash is the token's hash. -/
theorem verify_email_ok_tokens (st : AuthState) (env : OpEnv) (plain : String)
    (u : User) (st1 : AuthState) (hsucc : verify_email st env plain = (.ok u, st1)) :
    st1.tokens = st.tokens.map (fun r =>
      if r.token_hash == hash_token plain then { r with used_at := some env.now }
      else r) := by
  unfold verify_email at hsucc
  rcases hvt : verify_token st plain "email_verification" env.now with ⟨vres, stv⟩
  have hstv : stv = st.trace .tokenRead := by
    have hx := verify_token_snd st plain "email_verification" env.now
    rw [hvt] at hx; exact hx
  rw [hvt] at hsucc
  cases vres with
  | error e => simp at hsucc
  | ok vt =>
    rcases hvid : vt.user_id with _ | uid
    · simp [hvid] at hsucc
    · simp only [hvid] at hsucc
      rcases hu : find_user_by_id_with_verification stv uid with _ | user
      · simp [hu] at hsucc
      · simp only [hu] at hsucc
        by_cases hv : user.email_verified
        · simp [hv] at hsucc
        · simp only [hv, Bool.false_eq_true, if_false] at hsucc
          rcases hu2 : find_user_by_id_with_verification
              (update_email_verified (mark_token_as_used (stv.trace .userRead) plain env.now)
                uid env.now) uid with _ | u2
          · rw [hu2] at hsucc
            simp at hsucc
          · rw [hu2] at hsucc
            simp only [Prod.mk.injEq, Except.ok.injEq] at hsucc
            rw [← hsucc.2]
            simp [mark_token_as_used, hstv]

/-- `verify_token` on a hash with no matching row. -/
theorem verify_token_fst_none (st : AuthState) (plain ty : String) (now : Int)
    (h : lookupToken st (hash_token plain) ty = none) :
    (verify_token st plain ty now).1 = .error (.InvalidToken "Token not found or invalid") := by
  unfold verify_token
  simp [h]

/-- `verify_token` on a consumed row. -/
theorem verify_token_fst_used (st : AuthState) (plain ty : String) (now : Int)
    (row : DbVerification) (h : lookupToken st (hash_token plain) ty = some row)
    (hused : row.used_at ≠ none) :
    (verify_token st plain ty now).1
      = .error (.TokenAlreadyUsed "This token has already been used") := by
  unfold verify_token
  simp [h, Option.isSome_iff_ne_none.2 hused]

/-- A `verify_token` error is returned by `verify_email` unchanged. -/
theorem verify_email_fst_of_token_error (st : AuthState) (env : OpEnv) (plain : String)
    (e : AuthError)
    (h : (verify_token st plain "email_verification" env.now).1 = .error e) :
    (verify_email st env plain).1 = .error e := by
  unfold verify_email
  rcases hvt : verify_token st plain "email_verification" env.now with ⟨vres, stv⟩
  rw [hvt] at h
  simp only at h
  cases vres with
  | error e2 => simp at h; simp [h]
  | ok vt => simp at h

/-- After any sequence of (non-colliding) operations following consumption,
`verify_email` on the same plaintext fails, with `TokenAlreadyUsed` whenever a
row with the hash is still present (it is `InvalidToken` only when the row was
deleted by expiry cleanup). -/
theorem verify_email_fails_of_used (st : AuthState) (env : OpEnv) (plain : String)
    (hP : tokensUsedFor st (hash_token plain)) :
    ((verify_email st env plain).1
        = .error (.TokenAlreadyUsed "This token has already been used")
      ∨ (verify_email st env plain).1
        = .error (.InvalidToken "Token not found or invalid"))
    ∧ (lookupToken st (hash_token plain) "email_verification" ≠ none →
        (verify_email st env plain).1
          = .error (.TokenAlreadyUsed "This token has already been used")) := by
  rcases hlt : lookupToken st (hash_token plain) "email_verification" with _ | row
  · constructor
    · right
      exact verify_email_fst_of_token_error st env plain _
        (verify_token_fst_none st plain "email_verification" env.now hlt)
    · intro hne
      exact absurd rfl hne
  · have hmem : row ∈ st.tokens := List.mem_of_find?_eq_some hlt
    have hpred := List.find?_some hlt
    have hhash : row.token_hash = hash_token plain := by
      simp only [Bool.and_eq_true, beq_iff_eq] at hpred
      exact hpred.1
    have hused : row.used_at ≠ none := hP row hmem hhash
    have hta := verify_email_fst_of_token_error st env plain _
      (verify_token_fst_used st plain "email_verification" env.now row hlt hused)
    exact ⟨Or.inl hta, fun _ => hta⟩

/-- No operation ever clears a consumed token's `used_at`: in any state whose
token ids are distinct (the primary-key invariant), if a row is consumed
before an operation, every row with that id after the operation is still
consumed. -/
theorem step_preserves_used_at (op : Op) (st : AuthState) (hnd : tokenIdsNodup st)
    (r : DbVerification) (hr : r ∈ st.tokens) (hused : r.used_at ≠ none) :
    ∀ r2 ∈ (Op.step st op).tokens, r2.id = r.id → r2.used_at ≠ none := by
  have hinj : ∀ a ∈ st.tokens, ∀ b ∈ st.tokens, a.id = b.id → a = b :=
    List.inj_on_of_nodup_map hnd
  have hsame : ∀ r2 ∈ st.tokens, r2.id = r.id → r2.used_at ≠ none := by
    intro r2 h2 hid
    rw [hinj r2 h2 r hr hid]
    exact hused
  have hfilter : ∀ (p : DbVerification → Bool),
      ∀ r2 ∈ st.tokens.filter p, r2.id = r.id → r2.used_at ≠ none := by
    intro p r2 h2 hid
    exact hsame r2 (List.mem_of_mem_filter h2) hid
  have hmark : ∀ (hm : String) (t : Int),
      ∀ r2 ∈ st.tokens.map (fun rr =>
        if rr.token_hash == hm then { rr with used_at := some t } else rr),
      r2.id = r.id → r2.used_at ≠ none := by
    intro hm t r2 h2 hid
    rcases List.mem_map.1 h2 with ⟨rr, hrr, hfr⟩
    by_cases hc : rr.token_hash == hm
    · rw [if_pos hc] at hfr
      rw [← hfr]
      simp
    · rw [if_neg hc] at hfr
      subst hfr
      exact hsame rr hrr hid
  have happend : ∀ {st2 : AuthState} {g : String}, TokensAppendFresh st st2 g →
      ∀ r2 ∈ st2.tokens, r2.id = r.id → r2.used_at ≠ none := by
    intro st2 g ha r2 h2 hid
    rcases ha with ⟨row, he, hrn, hrh, hfr⟩
    rw [he] at h2
    rcases List.mem_append.1 h2 with h2 | h2
    · exact hsame r2 h2 hid
    · simp only [List.mem_singleton] at h2
      subst h2
      exact absurd hid (by rw [hid]; exact fun hx => hfr r hr (by rw [← hx] at hid; exact hid.symm))
  cases op with
  | opRegister env so req =>
    rcases register_tokens st env so req with he | ha
    · intro r2 h2; simp only [Op.step] at h2; rw [he] at h2; exact hsame r2 h2
    · exact happend ha
  | opLogin env rev req =>
    intro r2 h2; simp only [Op.step] at h2
    rw [login_tokens st env rev req] at h2; exact hsame r2 h2
  | opLogout token =>
    intro r2 h2; simp only [Op.step] at h2
    rw [logout_tokens st token] at h2; exact hsame r2 h2
  | opVerifySession now token =>
    intro r2 h2; simp only [Op.step] at h2
    rw [verify_session_tokens st now token] at h2; exact hsame r2 h2
  | opSendEmailVerification env uid =>
    rcases send_email_verification_tokens st env uid with he | ha
    · intro r2 h2; simp only [Op.step] at h2; rw [he] at h2; exact hsame r2 h2
    · exact happend ha
  | opVerifyEmail env plain =>
    rcases verify_email_tokens st env plain with he | he
    · intro r2 h2; simp only [Op.step] at h2; rw [he] at h2; exact hsame r2 h2
    · intro r2 h2; simp only [Op.step] at h2; rw [he] at h2; exact hmark _ _ r2 h2
  | opResendEmailVerification env email =>
    rcases resend_email_verification_tokens st env email with he | ha
    · intro r2 h2; simp only [Op.step] at h2; rw [he] at h2; exact hsame r2 h2
    · exact happend ha
  | opCleanExpiredTokens now =>
    intro r2 h2; simp only [Op.step] at h2
    rw [clean_expired_tokens_tokens st now] at h2; exact hfilter _ r2 h2

/-! ### Concrete fixtures used by the witnesses -/

/-- One unverified user. -/
def userRow0 : DbUser :=
  { id := "u1", email := "a@b.co", name := none, created_at := 0, updated_at := 0
    email_verified := some false, email_verified_at := none }

/-- One issued (unused, unexpired at time 50) email-verification token for
`userRow0`, with plaintext "P". -/
def tokenRow0 : DbVerification :=
  { id := "t1", user_id := some "u1", identifier := "a@b.co"
    token_hash := hash_token "P", token_type := "email_verification"
    expires_at := 100, created_at := 0, used_at := none }

/-- State holding `userRow0` and `tokenRow0`. -/
def stFix : AuthState :=
  { users := [userRow0], accounts := [], sessions := [], tokens := [tokenRow0], log := [] }

/-- Environment: time 50, fresh token "Q" / id "t2", no queue, no sender. -/
def envFix : OpEnv :=
  { now := 50, tokenPlain := "Q", tokenId := "t2", userId := "u9", accountId := "a9"
    sessionId := "s1", sessionToken := "stok", queue := none, sender := none
    accountInsertOk := true }

/-- The user returned by the successful `verify_email` on `stFix`. -/
def userFix : User :=
  { id := "u1", email := "a@b.co", name := none, email_verified := true
    email_verified_at := some 50, created_at := 0, updated_at := 0 }

/-- The state after the successful `verify_email` on `stFix`. -/
def stFixPost : AuthState :=
  { users := [{ id := "u1", email := "a@b.co", name := none, created_at := 0
                updated_at := 0, email_verified := some true, email_verified_at := some 50 }]
    accounts := [], sessions := []
    tokens := [{ id := "t1", user_id := some "u1", identifier := "a@b.co"
                 token_hash := hash_token "P", token_type := "email_verification"
                 expires_at := 100, created_at := 0, used_at := some 50 }]
    log := [.tokenRead, .userRead, .tokenMarkUsed, .userWrite, .userRead] }

/-- `find?` returns the designated element when it is the unique one
satisfying the predicate. -/
theorem find?_of_unique {α : Type} (p : α → Bool) (l : List α) (a : α)
    (ha : a ∈ l) (hpa : p a = true) (huniq : ∀ b ∈ l, p b = true → b = a) :
    l.find? p = some a := by
  induction l with
  | nil => cases ha
  | cons x xs ih =>
    by_cases hx : p x
    · have hxa : x = a := huniq x (List.mem_cons_self x xs) hx
      rw [List.find?_cons_of_pos _ hx, hxa]
    · rw [List.find?_cons_of_neg _ hx]
      rcases List.mem_cons.1 ha with h | h
      · subst h; exact absurd hpa hx
      · exact ih h (fun b hb hpb => huniq b (List.mem_cons_of_mem _ hb) hpb)

/-- No row matches, as a `lookupToken` result. -/
theorem lookupToken_eq_none (st : AuthState) (h ty : String)
    (hnone : ∀ r ∈ st.tokens, ¬(r.token_hash = h ∧ r.token_type = ty)) :
    lookupToken st h ty = none := by
  unfold lookupToken
  rw [List.find?_eq_none]
  intro r hr
  simp only [Bool.and_eq_true, beq_iff_eq]
  exact fun hc => hnone r hr hc

/-- The unique matching row, as a `lookupToken` result. -/
theorem lookupToken_eq_some (st : AuthState) (h ty : String) (row : DbVerification)
    (hmem : row ∈ st.tokens) (hh : row.token_hash = h) (hty : row.token_type = ty)
    (huniq : ∀ r2 ∈ st.tokens, r2.token_hash = h → r2.token_type = ty → r2 = row) :
    lookupToken st h ty = some row := by
  unfold lookupToken
  refine find?_of_unique _ _ row hmem (by simp [hh, hty]) ?_
  intro b hb hpb
  simp only [Bool.and_eq_true, beq_iff_eq] at hpb
  exact huniq b hb hpb.1 hpb.2

/-- `verify_token` on an unused, expired row. -/
theorem verify_token_fst_expired (st : AuthState) (plain ty : String) (now : Int)
    (row : DbVerification) (h : lookupToken st (hash_token plain) ty = some row)
    (hun : row.used_at = none) (hexp : row.expires_at < now) :
    (verify_token st plain ty now).1 = .error (.TokenExpired "Token has expired") := by
  unfold verify_token
  simp [h, hun, hexp]

/-- `verify_token` on an unused row that has not expired. -/
theorem verify_token_fst_valid (st : AuthState) (plain ty : String) (now : Int)
    (row : DbVerification) (h : lookupToken st (hash_token plain) ty = some row)
    (hun : row.used_at = none) (hexp : ¬(row.expires_at < now)) :
    (verify_token st plain ty now).1
      = .ok { id := row.id, user_id := row.user_id, token_type := ty } := by
  unfold verify_token
  simp [h, hun, hexp]

/-! ### Claim theorems -/

/-- Claim C1: a generated email-verification token succeeds in `verify_email`
at most once.  After a successful `verify_email(T)` (which marks every row
with T's hash consumed), any subsequent `verify_email(T)` - across any
sequence of public operations whose freshly drawn tokens do not collide with
T's hash - fails, and fails with `TokenAlreadyUsed` whenever the `used_at`
check is reached (i.e. the row is still found; only expiry cleanup deleting
the row degrades it to `InvalidToken`).  Moreover no operation ever clears a
consumed row's `used_at` (under the `tokens.id` primary-key invariant). -/
theorem C1_verify_email_single_use (st : AuthState) (env : OpEnv) (T : String)
    (u : User) (st1 : AuthState) (hsucc : verify_email st env T = (.ok u, st1)) :
    tokensUsedFor st1 (hash_token T)
    ∧ (∀ ops : List Op, (∀ op ∈ ops, Op.freshFor (hash_token T) op) → ∀ env2 : OpEnv,
        ((verify_email (runOps st1 ops) env2 T).1
            = .error (.TokenAlreadyUsed "This token has already been used")
          ∨ (verify_email (runOps st1 ops) env2 T).1
            = .error (.InvalidToken "Token not found or invalid"))
        ∧ (lookupToken (runOps st1 ops) (hash_token T) "email_verification" ≠ none →
            (verify_email (runOps st1 ops) env2 T).1
              = .error (.TokenAlreadyUsed "This token has already been used")))
    ∧ (∀ op : Op, ∀ st0 : AuthState, tokenIdsNodup st0 →
        ∀ r ∈ st0.tokens, r.used_at ≠ none →
          ∀ r2 ∈ (Op.step st0 op).tokens, r2.id = r.id → r2.used_at ≠ none) := by
  have htk := verify_email_ok_tokens st env T u st1 hsucc
  have hP1 : tokensUsedFor st1 (hash_token T) := by
    intro r hr hh
    rw [htk] at hr
    rcases List.mem_map.1 hr with ⟨rr, hrr, hfr⟩
    by_cases hc : rr.token_hash == hash_token T
    · rw [if_pos hc] at hfr
      rw [← hfr]
      simp
    · rw [if_neg hc] at hfr
      subst hfr
      exact absurd hh (by simpa using hc)
  refine ⟨hP1, ?_, ?_⟩
  · intro ops hf env2
    have hcross :
        ((verify_email (runOps st1 ops) env2 T).1
            = .error (.TokenAlreadyUsed "This token has already been used")
          ∨ (verify_email (runOps st1 ops) env2 T).1
            = .error (.InvalidToken "Token not found or invalid"))
        ∧ (lookupToken (runOps st1 ops) (hash_token T) "email_verification" ≠ none →
            (verify_email (runOps st1 ops) env2 T).1
              = .error (.TokenAlreadyUsed "This token has already been used")) :=
      verify_email_fails_of_used (runOps st1 ops) env2 T
        (tokensUsedFor_runOps (hash_token T) ops st1 hf hP1)
    exact hcross
  · intro op st0 hnd r hr hu r2 h2 hid
    exact step_preserves_used_at op st0 hnd r hr hu r2 h2 hid

/-- Witness for C1 at the concrete fixture: the first `verify_email` succeeds
and the theorem then yields consumption of the stored row and the
`TokenAlreadyUsed` failure of an immediate second call. -/
theorem C1_verify_email_single_use_witness :
    tokensUsedFor stFixPost (hash_token "P")
    ∧ (verify_email stFixPost envFix "P").1
        = .error (.TokenAlreadyUsed "This token has already been used") := by
  have h := C1_verify_email_single_use stFix envFix "P" userFix stFixPost (by rfl)
  have h2 := (h.2.1 [] (by intro op hop; simp at hop) envFix).2
  refine ⟨h.1, ?_⟩
  have hlt : lookupToken (runOps stFixPost []) (hash_token "P") "email_verification" ≠ none := by
    rw [show runOps stFixPost [] = stFixPost from rfl]
    decide
  have := h2 hlt
  rw [show runOps stFixPost [] = stFixPost from rfl] at this
  exact this

/-- Claim C2: `verify_token` reports errors in the order not-found →
`InvalidToken`, found-but-used → `TokenAlreadyUsed`, found-unused-but-expired
→ `TokenExpired`, otherwise returns the stored identity; the used check
precedes the expiry check (an expired-but-unused token reports
`TokenExpired`), and verification writes nothing to token storage (or any
other table) - it performs exactly one read. -/
theorem C2_verify_token_check_order (st : AuthState) (plain ty : String) (now : Int) :
    ((∀ r ∈ st.tokens, ¬(r.token_hash = hash_token plain ∧ r.token_type = ty)) →
      (verify_token st plain ty now).1 = .error (.InvalidToken "Token not found or invalid"))
    ∧ (∀ row ∈ st.tokens, row.token_hash = hash_token plain → row.token_type = ty →
        (∀ r2 ∈ st.tokens, r2.token_hash = hash_token plain → r2.token_type = ty → r2 = row) →
        ((row.used_at ≠ none →
           (verify_token st plain ty now).1
             = .error (.TokenAlreadyUsed "This token has already been used"))
         ∧ (row.used_at = none → row.expires_at < now →
           (verify_token st plain ty now).1 = .error (.TokenExpired "Token has expired"))
         ∧ (row.used_at = none → ¬(row.expires_at < now) →
           (verify_token st plain ty now).1
             = .ok { id := row.id, user_id := row.user_id, token_type := ty })))
    ∧ ((verify_token st plain ty now).2.users = st.users
       ∧ (verify_token st plain ty now).2.accounts = st.accounts
       ∧ (verify_token st plain ty now).2.sessions = st.sessions
       ∧ (verify_token st plain ty now).2.tokens = st.tokens
       ∧ (verify_token st plain ty now).2.log = st.log ++ [.tokenRead]) := by
  refine ⟨?_, ?_, ?_⟩
  · intro hnone
    exact verify_token_fst_none st plain ty now (lookupToken_eq_none st _ ty hnone)
  · intro row hmem hh hty huniq
    have hlt := lookupToken_eq_some st (hash_token plain) ty row hmem hh hty huniq
    exact ⟨fun hu => verify_token_fst_used st plain ty now row hlt hu,
           fun hun hexp => verify_token_fst_expired st plain ty now row hlt hun hexp,
           fun hun hexp => verify_token_fst_valid st plain ty now row hlt hun hexp⟩
  · have hsnd := verify_token_snd st plain ty now
    rw [hsnd]
    simp

/-- Witness for C2 at the concrete fixture: the stored row is unique, unused
and unexpired at time 50, and `verify_token` returns its identity. -/
theorem C2_verify_token_check_order_witness :
    (verify_token stFix "P" "email_verification" 50).1
      = .ok { id := "t1", user_id := some "u1", token_type := "email_verification" } := by
  have h := (C2_verify_token_check_order stFix "P" "email_verification" 50).2.1
    tokenRow0 (by decide) rfl rfl (by decide)
  exact h.2.2 rfl (by decide)

/-- Identifier-only token fixture (null `user_id`), plaintext "R". -/
def tokenRowNoUser : DbVerification :=
  { id := "t3", user_id := none, identifier := "x@y.zz"
    token_hash := hash_token "R", token_type := "email_verification"
    expires_at := 100, created_at := 0, used_at := none }

def stFixNoUser : AuthState :=
  { users := [], accounts := [], sessions := [], tokens := [tokenRowNoUser], log := [] }

/-- Credential account for `userRow0` with password "pw". -/
def accountRow0 : DbAccount :=
  { id := "a1", user_id := "u1", provider := "credential"
    provider_account_id := "a@b.co", password_hash := some (hash_password "pw")
    created_at := 0, updated_at := 0 }

def stFixLogin : AuthState :=
  { users := [userRow0], accounts := [accountRow0], sessions := [], tokens := [], log := [] }

def loginReqWrongPw : LoginReq :=
  { email := "a@b.co", password := "bad", ip_address := none, user_agent := none }

def loginReqNoUser : LoginReq :=
  { email := "nobody@b.co", password := "bad", ip_address := none, user_agent := none }

/-- Claim C10: when the verified token row has no associated `user_id`,
`verify_email` fails with `InvalidToken` ("Token does not have an associated
user") and leaves the token table (so the row stays unused) and the user table
unmodified; the already-verified check, mark-used and `email_verified` update
are all skipped. -/
theorem C10_verify_email_requires_user_id (st : AuthState) (env : OpEnv)
    (plain : String) (row : DbVerification)
    (hlt : lookupToken st (hash_token plain) "email_verification" = some row)
    (hun : row.used_at = none) (hexp : ¬(row.expires_at < env.now))
    (hnouid : row.user_id = none) :
    (verify_email st env plain).1
      = .error (.InvalidToken "Token does not have an associated user")
    ∧ (verify_email st env plain).2.tokens = st.tokens
    ∧ (verify_email st env plain).2.users = st.users := by
  have hok := verify_token_fst_valid st plain "email_verification" env.now row hlt hun hexp
  have hsnd := verify_token_snd st plain "email_verification" env.now
  unfold verify_email
  rcases hvt : verify_token st plain "email_verification" env.now with ⟨vres, stv⟩
  rw [hvt] at hok hsnd
  simp only at hok hsnd
  subst hok
  subst hsnd
  simp [hnouid]

/-- Witness for C10: on `stFixNoUser` the stored token "R" is valid but
identifier-only, so `verify_email` rejects it and changes nothing. -/
theorem C10_verify_email_requires_user_id_witness :
    (verify_email stFixNoUser envFix "R").1
      = .error (.InvalidToken "Token does not have an associated user")
    ∧ (verify_email stFixNoUser envFix "R").2.tokens = stFixNoUser.tokens := by
  have h := C10_verify_email_requires_user_id stFixNoUser envFix "R" tokenRowNoUser
    (by decide) rfl (by decide) rfl
  exact ⟨h.1, h.2.1⟩

/-- Claim C9 (implicit): `login` verifies the password before the
email-verification guard, so with `require_email_verification` enabled a
wrong password on an unverified account yields `InvalidCredentials` and never
`EmailNotVerified`. -/
theorem C9_login_checks_password_first (st : AuthState) (env : OpEnv)
    (req : LoginReq) (uwa : DbUserWithAccount) (ph : String)
    (hfound : lookupUserWithCredentialAccount st req.email = some uwa)
    (hhash : uwa.account.password_hash = some ph)
    (hwrong : verify_password req.password ph = false) :
    (login st env true req).1 = .error .InvalidCredentials
    ∧ ∀ e, (login st env true req).1 ≠ .error (.EmailNotVerified e) := by
  have h1 : (login st env true req).1 = .error .InvalidCredentials := by
    unfold login
    simp [hfound, hhash, hwrong]
  refine ⟨h1, ?_⟩
  intro e he
  rw [h1] at he
  simp at he

/-- Witness for C9: `userRow0` is unverified, the stored hash is for "pw",
and a login attempt with password "bad" under the verification requirement
reports `InvalidCredentials`. -/
theorem C9_login_checks_password_first_witness :
    (login stFixLogin envFix true loginReqWrongPw).1 = .error .InvalidCredentials := by
  exact (C9_login_checks_password_first stFixLogin envFix loginReqWrongPw
    { user := userRow0, account := accountRow0 } (hash_password "pw")
    (by decide) rfl (by decide)).1

/-- Claim C5: the login failure for an unknown email and the login failure
for a known email with a non-matching password are the same
`InvalidCredentials` value - the two runs are indistinguishable by the error
kind. -/
theorem C5_login_uniform_invalid_credentials (st1 st2 : AuthState)
    (env1 env2 : OpEnv) (rev1 rev2 : Bool) (req1 req2 : LoginReq)
    (uwa : DbUserWithAccount) (ph : String)
    (hnouser : lookupUserWithCredentialAccount st1 req1.email = none)
    (hfound : lookupUserWithCredentialAccount st2 req2.email = some uwa)
    (hhash : uwa.account.password_hash = some ph)
    (hwrong : verify_password req2.password ph = false) :
    (login st1 env1 rev1 req1).1 = .error .InvalidCredentials
    ∧ (login st2 env2 rev2 req2).1 = .error .InvalidCredentials
    ∧ (login st1 env1 rev1 req1).1 = (login st2 env2 rev2 req2).1 := by
  have h1 : (login st1 env1 rev1 req1).1 = .error .InvalidCredentials := by
    unfold login
    simp [hnouser]
  have h2 : (login st2 env2 rev2 req2).1 = .error .InvalidCredentials := by
    unfold login
    simp [hfound, hhash, hwrong]
  exact ⟨h1, h2, by rw [h1, h2]⟩

/-- Witness for C5: unknown email "nobody@b.co" versus wrong password for
"a@b.co" produce the identical error. -/
theorem C5_login_uniform_invalid_credentials_witness :
    (login stFixLogin envFix false loginReqNoUser).1 = .error .InvalidCredentials
    ∧ (login stFixLogin envFix false loginReqWrongPw).1 = .error .InvalidCredentials := by
  have h := C5_login_uniform_invalid_credentials stFixLogin stFixLogin envFix envFix
    false false loginReqNoUser loginReqWrongPw
    { user := userRow0, account := accountRow0 } (hash_password "pw")
    (by decide) (by decide) rfl (by decide)
  exact ⟨h.1, h.2.1⟩

/-- Already-verified user fixture, with a still-valid token (plaintext "S")
targeting them. -/
def userRowVerified : DbUser :=
  { id := "u2", email := "v@b.co", name := none, created_at := 0, updated_at := 0
    email_verified := some true, email_verified_at := some 10 }

def tokenRowForVerified : DbVerification :=
  { id := "t4", user_id := some "u2", identifier := "v@b.co"
    token_hash := hash_token "S", token_type := "email_verification"
    expires_at := 100, created_at := 0, used_at := none }

def stFixVerified : AuthState :=
  { users := [userRowVerified], accounts := [], sessions := []
    tokens := [tokenRowForVerified], log := [] }

/-- Claim C3, amended: for an already-verified user,
`send_email_verification` and `resend_email_verification` fail with
`EmailAlreadyVerified` after exactly one user read - no token row is looked
up, created, or marked used - and `verify_email` on a valid token targeting
that user also fails with `EmailAlreadyVerified` and performs no token-storage
write (the row is not marked used, none is created), but it does read token
storage first: its trace is a token read followed by a user read. -/
theorem C3_verified_user_guard_frame (st : AuthState) (env : OpEnv) :
    (∀ uid du, lookupUserById st uid = some du → du.email_verified.getD false = true →
      send_email_verification st env uid
        = (.error (.EmailAlreadyVerified "Email is already verified"), st.trace .userRead))
    ∧ (∀ email du, lookupUserByEmail st email = some du →
        du.email_verified.getD false = true →
      resend_email_verification st env email
        = (.error (.EmailAlreadyVerified "Email is already verified"), st.trace .userRead))
    ∧ (∀ plain row uid du,
        lookupToken st (hash_token plain) "email_verification" = some row →
        row.used_at = none → ¬(row.expires_at < env.now) → row.user_id = some uid →
        lookupUserById st uid = some du → du.email_verified.getD false = true →
        (verify_email st env plain).1
          = .error (.EmailAlreadyVerified "Email is already verified")
        ∧ (verify_email st env plain).2.tokens = st.tokens
        ∧ (verify_email st env plain).2.log = st.log ++ [.tokenRead, .userRead]) := by
  refine ⟨?_, ?_, ?_⟩
  · intro uid du hlook hv
    have hfu : find_user_by_id_with_verification st uid = some du.toUser := by
      unfold find_user_by_id_with_verification
      rw [hlook]; rfl
    have hv2 : du.toUser.email_verified = true := hv
    unfold send_email_verification
    simp [hfu, hv2]
  · intro email du hlook hv
    unfold resend_email_verification
    simp [hlook, hv]
  · intro plain row uid du hlt hun hexp huid hlook hv
    have hok := verify_token_fst_valid st plain "email_verification" env.now row hlt hun hexp
    have hsnd := verify_token_snd st plain "email_verification" env.now
    unfold verify_email
    rcases hvt : verify_token st plain "email_verification" env.now with ⟨vres, stv⟩
    rw [hvt] at hok hsnd
    simp only at hok hsnd
    subst hok
    subst hsnd
    have hfu : find_user_by_id_with_verification (st.trace .tokenRead) uid
        = some du.toUser := by
      unfold find_user_by_id_with_verification
      rw [show lookupUserById (st.trace .tokenRead) uid = lookupUserById st uid from rfl,
        hlook]
      rfl
    have hv2 : du.toUser.email_verified = true := hv
    simp [huid, hfu, hv2]

/-- Counterexample to C3 as stated: on `stFixVerified` (user already
verified, token "S" valid), `verify_email` does fail with
`EmailAlreadyVerified`, but its database trace contains a token-storage read -
the token row is looked up before the already-verified check, contradicting
"performs no read ... of token storage (no token row is looked up ...)". -/
theorem C3_counterexample_verify_email_reads_tokens :
    (verify_email stFixVerified envFix "S").1
      = .error (.EmailAlreadyVerified "Email is already verified")
    ∧ (verify_email stFixVerified envFix "S").2.log = [DbEvent.tokenRead, DbEvent.userRead]
    ∧ DbEvent.tokenRead ∈ (verify_email stFixVerified envFix "S").2.log
    ∧ stFixVerified.log = [] := by
  refine ⟨rfl, rfl, by decide, rfl⟩

/-- Witness for the amended C3 at the fixture. -/
theorem C3_verified_user_guard_frame_witness :
    (send_email_verification stFixVerified envFix "u2").1
      = .error (.EmailAlreadyVerified "Email is already verified")
    ∧ (resend_email_verification stFixVerified envFix "v@b.co").1
      = .error (.EmailAlreadyVerified "Email is already verified")
    ∧ (verify_email stFixVerified envFix "S").2.tokens = stFixVerified.tokens := by
  have h := C3_verified_user_guard_frame stFixVerified envFix
  refine ⟨?_, ?_, ?_⟩
  · rw [h.1 "u2" userRowVerified (by decide) rfl]
  · rw [h.2.1 "v@b.co" userRowVerified (by decide) rfl]
  · exact (h.2.2 "S" tokenRowForVerified "u2" userRowVerified (by decide) rfl
      (by decide) rfl (by decide) rfl).2.1

/-- Empty database and a register request with a valid email and a strong
password; the environment makes the second insert (`create_account`) fail. -/
def stEmpty : AuthState :=
  { users := [], accounts := [], sessions := [], tokens := [], log := [] }

def regReq0 : RegisterReq :=
  { email := "alice@example.com", password := "SecurePass123", name := none }

def envRegFail : OpEnv :=
  { now := 0, tokenPlain := "Q", tokenId := "t2", userId := "uNew", accountId := "aNew"
    sessionId := "s1", sessionToken := "stok", queue := none, sender := none
    accountInsertOk := false }

/-- Claim C4 names a code bug: `register` runs `create_user` and
`create_account` as two separate statements with no transaction or rollback,
so when the account insert fails the operation does return an error, but a
`User` row with no credential account remains persisted - the state is not
unchanged on error. -/
theorem C4_register_leaves_user_without_account :
    (register stEmpty envRegFail false regReq0).1
      = .error (.DatabaseError "account insert failed")
    ∧ (register stEmpty envRegFail false regReq0).2.users
        = [{ id := "uNew", email := "alice@example.com", name := none, created_at := 0
             updated_at := 0, email_verified := some false, email_verified_at := none }]
    ∧ (register stEmpty envRegFail false regReq0).2.accounts = [] := by
  refine ⟨rfl, rfl, rfl⟩

/-- `generate_token` with a fresh id: the insert succeeds and the result is
fully determined. -/
theorem generate_token_of_fresh (st : AuthState) (plain id uid ident ty : String)
    (now ttl : Int) (hfresh : st.tokens.any (fun r => r.id == id) = false) :
    generate_token st plain id uid ident ty now ttl
      = (.ok { id := id, token := plain, token_hash := hash_token plain
               user_id := some uid, identifier := ident, token_type := ty
               expires_at := now + ttl, created_at := now },
         { st with tokens := st.tokens ++ [mkTokenRow id uid ident ty plain now ttl]
                   log := st.log ++ [.tokenCreate] }) := by
  unfold generate_token db_create_token
  have hf2 : (st.tokens.any fun r => r.id == (mkTokenRow id uid ident ty plain now ttl).id)
      = false := by
    simpa [mkTokenRow] using hfresh
  simp [hf2]

/-- When the queue rejected the job and the configured sender succeeds, the
delivery tail returns the verification token (and, being database-free,
leaves the state alone). -/
theorem deliverVerification_eq_senderOk (st : AuthState) (env : OpEnv) (email : String)
    (tok : Token) (qe : EmailQueueError)
    (hq : env.queue = some (.error qe)) (hs : env.sender = some (.ok ())) :
    deliverVerification st env email tok
      = (.ok { token := tok.token, identifier := email, expires_at := tok.expires_at }, st) := by
  unfold deliverVerification
  rw [hq, hs]

/-- When the queue rejected the job and the configured sender fails, the
delivery tail returns the sender's error unchanged. -/
theorem deliverVerification_eq_senderErr (st : AuthState) (env : OpEnv) (email : String)
    (tok : Token) (qe : EmailQueueError) (e : AuthError)
    (hq : env.queue = some (.error qe)) (hs : env.sender = some (.error e)) :
    deliverVerification st env email tok = (.error e, st) := by
  unfold deliverVerification
  rw [hq, hs]

/-- Claim C6, amended: when enqueueing fails during `send_email_verification`,
`resend_email_verification` or register-with-auto-send, the operation falls
back to the synchronous `EmailSender` call and returns an error exactly when
that call fails - but the error it returns is the sender's error propagated
unchanged (`EmailSendFailed` only when the sender itself reports
`EmailSendFailed`), not coerced to `EmailSendFailed` by the core. -/
theorem C6_enqueue_failure_sync_fallback (st : AuthState) (env : OpEnv)
    (qe : EmailQueueError) (hq : env.queue = some (.error qe)) :
    (∀ uid du, lookupUserById st uid = some du → du.email_verified.getD false = false →
      (st.tokens.any (fun r => r.id == env.tokenId)) = false →
      ((env.sender = some (.ok ()) → (send_email_verification st env uid).1
          = .ok { token := env.tokenPlain, identifier := du.toUser.email
                  expires_at := env.now + 86400 })
       ∧ (∀ e, env.sender = some (.error e) →
           (send_email_verification st env uid).1 = .error e)))
    ∧ (∀ email du, lookupUserByEmail st email = some du →
        du.email_verified.getD false = false →
        (st.tokens.any (fun r => r.id == env.tokenId)) = false →
        ((env.sender = some (.ok ()) → (resend_email_verification st env email).1
            = .ok { token := env.tokenPlain, identifier := du.email
                    expires_at := env.now + 86400 })
         ∧ (∀ e, env.sender = some (.error e) →
             (resend_email_verification st env email).1 = .error e)))
    ∧ (∀ req : RegisterReq, validate_email req.email = .ok () →
        validate_password req.password = .ok () →
        lookupUserByEmail st req.email = none → env.accountInsertOk = true →
        (st.tokens.any (fun r => r.id == env.tokenId)) = false →
        ((env.sender = some (.ok ()) → ∃ u, (register st env true req).1 = .ok u)
         ∧ (∀ e, env.sender = some (.error e) →
             (register st env true req).1 = .error e))) := by
  refine ⟨?_, ?_, ?_⟩
  · intro uid du hlook hvf hfresh
    have hfu : find_user_by_id_with_verification st uid = some du.toUser := by
      unfold find_user_by_id_with_verification
      rw [hlook]; rfl
    have hv2 : du.toUser.email_verified = false := hvf
    have hfr2 : ((st.trace .userRead).tokens.any (fun r => r.id == env.tokenId)) = false := by
      simpa using hfresh
    have hgen := generate_token_of_fresh (st.trace .userRead) env.tokenPlain env.tokenId
      uid du.toUser.email "email_verification" env.now 86400 hfr2
    constructor
    · intro hs
      unfold send_email_verification
      simp only [hfu, hv2, Bool.false_eq_true, if_false]
      simp only [hgen]
      rw [deliverVerification_eq_senderOk _ env _ _ qe hq hs]
    · intro e hs
      unfold send_email_verification
      simp only [hfu, hv2, Bool.false_eq_true, if_false]
      simp only [hgen]
      rw [deliverVerification_eq_senderErr _ env _ _ qe e hq hs]
  · intro email du hlook hvf hfresh
    have hfr2 : ((st.trace .userRead).tokens.any (fun r => r.id == env.tokenId)) = false := by
      simpa using hfresh
    have hgen := generate_token_of_fresh (st.trace .userRead) env.tokenPlain env.tokenId
      du.id du.email "email_verification" env.now 86400 hfr2
    constructor
    · intro hs
      unfold resend_email_verification
      simp only [hlook, hvf, Bool.false_eq_true, if_false]
      simp only [hgen]
      rw [deliverVerification_eq_senderOk _ env _ _ qe hq hs]
    · intro e hs
      unfold resend_email_verification
      simp only [hlook, hvf, Bool.false_eq_true, if_false]
      simp only [hgen]
      rw [deliverVerification_eq_senderErr _ env _ _ qe e hq hs]
  · intro req hve hvp hu hacc hfresh
    have hfr2 : ((create_account (create_user (st.trace .userRead) env.userId req.email
        req.name env.now).2 env.accountId env.userId "credential" req.email
        (some (hash_password req.password)) env.now).tokens.any
          (fun r => r.id == env.tokenId)) = false := by
      simpa using hfresh
    have hgen := generate_token_of_fresh _ env.tokenPlain env.tokenId
      env.userId req.email "email_verification" env.now 86400 hfr2
    constructor
    · intro hs
      refine ⟨(create_user (st.trace .userRead) env.userId req.email req.name env.now).1, ?_⟩
      unfold register
      simp only [hve, hvp, hu, hacc, Bool.not_true, Bool.false_eq_true, if_false, hs,
        Option.isNone_some]
      simp only [hgen]
      rw [deliverVerification_eq_senderOk _ env _ _ qe hq hs]
    · intro e hs
      unfold register
      simp only [hve, hvp, hu, hacc, Bool.not_true, Bool.false_eq_true, if_false, hs,
        Option.isNone_some]
      simp only [hgen]
      rw [deliverVerification_eq_senderErr _ env _ _ qe e hq hs]

/-- Environment whose queue rejects the job and whose sender fails with an
error that is not `EmailSendFailed`. -/
def envQueueFail : OpEnv :=
  { now := 50, tokenPlain := "Q", tokenId := "t2", userId := "u9", accountId := "a9"
    sessionId := "s1", sessionToken := "stok"
    queue := some (.error .QueueFull)
    sender := some (.error (.InternalError "smtp down"))
    accountInsertOk := true }

/-- Counterexample to C6 as stated: with the queue full and a sender that
fails with `InternalError`, `send_email_verification` does fall back to the
synchronous send and does return an error - but that error is the sender's
`InternalError`, not `EmailSendFailed`. -/
theorem C6_counterexample_error_not_coerced :
    (send_email_verification stFix envQueueFail "u1").1
      = .error (.InternalError "smtp down")
    ∧ (match (send_email_verification stFix envQueueFail "u1").1 with
       | .error e => e.isEmailSendFailed
       | .ok _ => true) = false := by
  refine ⟨rfl, rfl⟩

/-- Witness for the amended C6 at the fixture: queue full, sender failing
with `InternalError "smtp down"` - the operation returns exactly that
error. -/
theorem C6_enqueue_failure_sync_fallback_witness :
    (send_email_verification stFix envQueueFail "u1").1
      = .error (.InternalError "smtp down") := by
  exact ((C6_enqueue_failure_sync_fallback stFix envQueueFail .QueueFull rfl).1
    "u1" userRow0 (by decide) rfl (by decide)).2 (.InternalError "smtp down") rfl

/-- With a sender that always fails, the loop runs until the attempt counter
reaches `max_attempts` (or makes its single mandatory attempt when it started
at or past the bound) and drops the job. -/
theorem process_job_iter_allfail (send : Nat → Bool) (m : Nat)
    (hfail : ∀ k, send k = false) :
    ∀ fuel attempts, m ≤ attempts + fuel + 1 →
      process_job_iter send m attempts fuel
        = .droppedPermanently (Nat.max (attempts + 1) m) := by
  intro fuel
  induction fuel with
  | zero =>
    intro attempts hle
    have hm : m ≤ attempts + 1 := by omega
    simp [process_job_iter, hfail, hm, Nat.max_eq_left hm]
  | succ f ih =>
    intro attempts hle
    by_cases hm : m ≤ attempts + 1
    · simp [process_job_iter, hfail, hm, Nat.max_eq_left hm]
    · have hrec := ih (attempts + 1) (by omega)
      have hmax : Nat.max (attempts + 1 + 1) m = Nat.max (attempts + 1) m :=
        (Nat.max_eq_right (by omega)).trans (Nat.max_eq_right (by omega)).symm
      rw [hmax] at hrec
      simp [process_job_iter, hfail, hm, hrec]

/-- If the k-th attempt is the first to succeed and k is within the attempt
budget, the loop stops right there with `sent k`. -/
theorem process_job_iter_firstsucc (send : Nat → Bool) (m k : Nat)
    (hk : send k = true) (hbefore : ∀ j, 1 ≤ j → j < k → send j = false)
    (hkm : k ≤ m) :
    ∀ fuel attempts, attempts + 1 ≤ k → k ≤ attempts + fuel + 1 →
      process_job_iter send m attempts fuel = .sent k := by
  intro fuel
  induction fuel with
  | zero =>
    intro attempts h1 h2
    have hak : attempts + 1 = k := by omega
    simp [process_job_iter, hak, hk]
  | succ f ih =>
    intro attempts h1 h2
    by_cases hak : attempts + 1 = k
    · simp [process_job_iter, hak, hk]
    · have hflt : send (attempts + 1) = false := hbefore _ (by omega) (by omega)
      have hmlt : ¬ m ≤ attempts + 1 := by omega
      simp [process_job_iter, hflt, hmlt, ih (attempts + 1) (by omega) (by omega)]

/-- The number of sender invocations never exceeds
`max (attempts + 1) max_attempts`. -/
theorem process_job_iter_attempts_le (send : Nat → Bool) (m : Nat) :
    ∀ fuel attempts,
      (process_job_iter send m attempts fuel).attemptCount
        ≤ Nat.max (attempts + 1) m := by
  intro fuel
  induction fuel with
  | zero =>
    intro attempts
    by_cases hs : send (attempts + 1)
    · simp [process_job_iter, hs, JobOutcome.attemptCount, Nat.le_max_left]
    · by_cases hm : m ≤ attempts + 1
      · simp [process_job_iter, hs, hm, JobOutcome.attemptCount, Nat.le_max_left]
      · simp [process_job_iter, hs, hm, JobOutcome.attemptCount, Nat.le_max_left]
  | succ f ih =>
    intro attempts
    by_cases hs : send (attempts + 1)
    · simp [process_job_iter, hs, JobOutcome.attemptCount, Nat.le_max_left]
    · by_cases hm : m ≤ attempts + 1
      · simp [process_job_iter, hs, hm, JobOutcome.attemptCount, Nat.le_max_left]
      · have hrec := ih (attempts + 1)
        have hle : Nat.max (attempts + 1 + 1) m ≤ Nat.max (attempts + 1) m :=
          le_of_eq ((Nat.max_eq_right (by omega)).trans (Nat.max_eq_right (by omega)).symm)
        simp only [process_job_iter, hs, hm]
        simp only [Bool.false_eq_true, if_false]
        exact le_trans hrec hle

/-- Claim C7, amended with `max_attempts ≥ 1`: the worker's processing loop
terminates (it is a total function here) and invokes the `EmailSender` at
most `max_attempts` times; a job whose every attempt fails is dropped
permanently after exactly `max_attempts` attempts (never retried again), and
a job whose k-th attempt (k ≤ max_attempts) is the first to succeed stops
after exactly k attempts.  The drop never reaches the caller that issued the
token: `process_job` returns no error channel (the Rust function returns
`()`; `JobOutcome` here only records the attempt count).  For
`max_attempts = 0` the loop still makes one attempt (see the
counterexample), which is why the bound needs `max_attempts ≥ 1`. -/
theorem C7_worker_attempt_budget (send : Nat → Bool) (n : Nat) (hn : 1 ≤ n) :
    ((∀ k, send k = false) → process_job send n = .droppedPermanently n)
    ∧ (∀ k, 1 ≤ k → k ≤ n → send k = true → (∀ j, 1 ≤ j → j < k → send j = false) →
        process_job send n = .sent k)
    ∧ (process_job send n).attemptCount ≤ n := by
  refine ⟨?_, ?_, ?_⟩
  · intro hfail
    have h := process_job_iter_allfail send n hfail n 0 (by omega)
    have hmx : Nat.max (0 + 1) n = n := Nat.max_eq_right (by omega)
    rw [hmx] at h
    exact h
  · intro k h1 hkn hks hbefore
    exact process_job_iter_firstsucc send n k hks hbefore hkn n 0 (by omega) (by omega)
  · have h := process_job_iter_attempts_le send n n 0
    have hmx : Nat.max (0 + 1) n = n := Nat.max_eq_right (by omega)
    rw [hmx] at h
    exact h

/-- Counterexample to C7 as stated: a job with `max_attempts = 0` is not
attempted "at most 0 times" - the loop increments before checking, so the
sender is still invoked once before the job is dropped. -/
theorem C7_counterexample_zero_budget :
    process_job (fun _ => false) 0 = .droppedPermanently 1
    ∧ (process_job (fun _ => false) 0).attemptCount = 1 := by
  refine ⟨rfl, rfl⟩

/-- Witness for the amended C7, mirroring the spec scenario: a sender that
fails twice then succeeds is dropped after exactly 2 attempts with
`max_attempts = 2`, and succeeds on the 3rd attempt with `max_attempts = 3`. -/
theorem C7_worker_attempt_budget_witness :
    process_job (fun _ => false) 2 = .droppedPermanently 2
    ∧ process_job (fun k => decide (3 ≤ k)) 3 = .sent 3 := by
  have h2 := C7_worker_attempt_budget (fun _ => false) 2 (by omega)
  have h3 := C7_worker_attempt_budget (fun k => decide (3 ≤ k)) 3 (by omega)
  refine ⟨h2.1 (fun k => rfl), ?_⟩
  refine h3.2.1 3 (by omega) (by omega) (by decide) ?_
  intro j h1 hj
  simp only [decide_eq_false_iff_not]
  omega

/-- `as i64` of a u64 value below `2^63` is the identity. -/
theorem toI64_of_lt (n : Nat) (h : n < 2 ^ 63) : toI64 n = (n : Int) := by
  unfold toI64 U64_MOD
  have hmod : n % 2 ^ 64 = n := Nat.mod_eq_of_lt (by omega)
  rw [hmod, if_pos h]

/-- i64 wrapping is the identity inside the representable range. -/
theorem wrapI64_of_bounds (x : Int) (h1 : -(2 ^ 63) ≤ x) (h2 : x < 2 ^ 63) :
    wrapI64 x = x := by
  unfold wrapI64 U64_MOD
  have hcast : ((2 ^ 64 : Nat) : Int) = 2 ^ 64 := by norm_num
  rw [hcast]
  have hmod : (x + 2 ^ 63) % (2 ^ 64 : Int) = x + 2 ^ 63 :=
    Int.emod_eq_of_lt (by omega) (by omega)
  rw [hmod]
  omega

/-- `calculate_backoff` unfolded through `clampedDelay`. -/
theorem calculate_backoff_eq (base_ms max_ms attempt r : Nat) :
    calculate_backoff base_ms max_ms attempt r
      = (max (wrapI64 (toI64 (clampedDelay base_ms max_ms attempt)
          + (if 0 < clampedDelay base_ms max_ms attempt / 10
             then wrapI64 (toI64 r - toI64 (clampedDelay base_ms max_ms attempt / 10))
             else 0))) 0).toNat := rfl

/-- Claim C8, amended: for every attempt ≥ 1, whenever the clamped delay
`min(base * 2^(attempt-1), max)` (computed in saturating u64 arithmetic) plus
its 10% jitter margin fits in i64 - true for every realistic configuration,
including the defaults 1s/60s - the returned delay equals the clamped delay
plus a jitter `j` with `10 * |j| ≤ clamped` (at most ±10%), and is
non-negative (it is a `Nat`, and the code additionally clamps at zero).  For
configured delays at or above `2^63` ms the `as i64` cast in the source wraps
and the formula fails (see the counterexample). -/
theorem C8_backoff_formula (base_ms max_ms attempt r : Nat) (h1a : 1 ≤ attempt)
    (hr : 0 < clampedDelay base_ms max_ms attempt / 10 →
      r < 2 * (clampedDelay base_ms max_ms attempt / 10))
    (hsmall : clampedDelay base_ms max_ms attempt
      + clampedDelay base_ms max_ms attempt / 10 < 2 ^ 63) :
    ∃ j : Int, 10 * j.natAbs ≤ clampedDelay base_ms max_ms attempt
      ∧ (calculate_backoff base_ms max_ms attempt r : Int)
          = (clampedDelay base_ms max_ms attempt : Int) + j := by
  have heq := calculate_backoff_eq base_ms max_ms attempt r
  set c := clampedDelay base_ms max_ms attempt with hc
  have hc63 : c < 2 ^ 63 := by omega
  have hti_c : toI64 c = (c : Int) := toI64_of_lt c hc63
  by_cases hjr : 0 < c / 10
  · have hrlt : r < 2 * (c / 10) := hr hjr
    have hdle : 2 * (c / 10) ≤ c := by omega
    have hr63 : r < 2 ^ 63 := by omega
    have hjr63 : c / 10 < 2 ^ 63 := by omega
    have hti_r : toI64 r = (r : Int) := toI64_of_lt r hr63
    have hti_j : toI64 (c / 10) = ((c / 10 : Nat) : Int) := toI64_of_lt _ hjr63
    have hwj : wrapI64 ((r : Int) - ((c / 10 : Nat) : Int))
        = (r : Int) - ((c / 10 : Nat) : Int) := by
      apply wrapI64_of_bounds
      · omega
      · omega
    have hsum : wrapI64 ((c : Int) + ((r : Int) - ((c / 10 : Nat) : Int)))
        = (c : Int) + ((r : Int) - ((c / 10 : Nat) : Int)) := by
      apply wrapI64_of_bounds
      · omega
      · omega
    have hnn : (0 : Int) ≤ (c : Int) + ((r : Int) - ((c / 10 : Nat) : Int)) := by omega
    refine ⟨(r : Int) - ((c / 10 : Nat) : Int), by omega, ?_⟩
    rw [heq, if_pos hjr, hti_c, hti_r, hti_j, hwj, hsum]
    rw [max_eq_left hnn]
    rw [Int.toNat_of_nonneg hnn]
  · have hnn : (0 : Int) ≤ (c : Int) + 0 := by omega
    refine ⟨0, by omega, ?_⟩
    rw [heq, if_neg hjr, hti_c]
    have hsum : wrapI64 ((c : Int) + 0) = (c : Int) + 0 := by
      apply wrapI64_of_bounds
      · omega
      · omega
    rw [hsum, max_eq_left hnn]
    rw [Int.toNat_of_nonneg hnn]

/-- Counterexample to C8 as stated: with base and max retry delays of `2^63`
milliseconds the clamped delay is `2^63`, an admissible jitter draw exists
(`r < 2 * (clamped/10)`), yet the returned delay is 0 - because `clamped as
i64` wraps to a negative value - and no jitter within ±10% of the clamped
value can explain a zero delay (the required jitter has `10 * |j| > clamped`). -/
theorem C8_counterexample_i64_wrap :
    calculate_backoff (2 ^ 63) (2 ^ 63) 1 1844674407370955159 = 0
    ∧ clampedDelay (2 ^ 63) (2 ^ 63) 1 = 2 ^ 63
    ∧ 1844674407370955159 < 2 * (clampedDelay (2 ^ 63) (2 ^ 63) 1 / 10)
    ∧ 10 * ((0 : Int) - ((2 ^ 63 : Nat) : Int)).natAbs > 2 ^ 63 := by
  refine ⟨by decide, by decide, by decide, by decide⟩

/-- Witness for the amended C8 at the default configuration (base 1s, max
60s, first retry, jitter draw 150 out of [0, 200)): the delay is the clamped
1000ms plus an in-range jitter. -/
theorem C8_backoff_formula_witness :
    ∃ j : Int, 10 * j.natAbs ≤ clampedDelay 1000 60000 1
      ∧ (calculate_backoff 1000 60000 1 150 : Int)
          = (clampedDelay 1000 60000 1 : Int) + j := by
  exact C8_backoff_formula 1000 60000 1 150 (by decide) (by decide) (by decide)

end Authkit
